import Mathlib

set_option maxHeartbeats 1000000
set_option maxRecDepth 4000

namespace HealthPlan

/-!
Shallow embedding of the health-plan-agent backend (Python) for verification.

Python/JSON values are modelled by `PyVal`; Python dicts are association
lists of string keys (Python dicts keep unique keys, which all operations
here preserve via `dictSet`).  External effects (the LLM client, the
Supabase client, the wall clock) are passed in explicitly as parameters;
Python exceptions are modelled with `Except`.
-/

/-- Model of a Python/JSON value (floats are out of scope of this model). -/
inductive PyVal where
  | pnone
  | pbool (b : Bool)
  | pint (n : Int)
  | pstr (s : String)
  | plist (xs : List PyVal)
  | pdict (kvs : List (String × PyVal))

/-- Python `d[k]` / `k in d` lookup on an association-list dict. -/
def dictGet (kvs : List (String × PyVal)) (k : String) : Option PyVal :=
  (kvs.find? (fun kv => kv.1 == k)).map (fun kv => kv.2)

/-- Python `k in d`. -/
def hasKey (kvs : List (String × PyVal)) (k : String) : Bool :=
  kvs.any (fun kv => kv.1 == k)

/-- Python `d.get(k, default)`. -/
def dictGetD (kvs : List (String × PyVal)) (k : String) (d : PyVal) : PyVal :=
  (dictGet kvs k).getD d

/-- Python `d[k] = v`: replace in place when the key exists, else append
(Python dicts keep the original insertion position on overwrite). -/
def dictSet (kvs : List (String × PyVal)) (k : String) (v : PyVal) :
    List (String × PyVal) :=
  if hasKey kvs k then
    kvs.map (fun kv => if kv.1 == k then (k, v) else kv)
  else
    kvs ++ [(k, v)]

/-- Python truthiness of a value. -/
def pyTruthy : PyVal → Bool
  | .pnone => false
  | .pbool b => b
  | .pint n => n != 0
  | .pstr s => !s.isEmpty
  | .plist xs => !xs.isEmpty
  | .pdict kvs => !kvs.isEmpty

/-- Python iteration `for x in v`: lists yield elements, strings yield
one-character strings, dicts yield their keys; other values raise. -/
def iterElems : PyVal → Except String (List PyVal)
  | .plist xs => .ok xs
  | .pstr s => .ok (s.data.map (fun c => .pstr (String.mk [c])))
  | .pdict kvs => .ok (kvs.map (fun kv => .pstr kv.1))
  | _ => .error "TypeError: object is not iterable"

/-- Lower-case hexadecimal digit of `n % 16`. -/
def hexChar (n : Nat) : Char :=
  match n % 16 with
  | 0 => '0' | 1 => '1' | 2 => '2' | 3 => '3' | 4 => '4' | 5 => '5'
  | 6 => '6' | 7 => '7' | 8 => '8' | 9 => '9' | 10 => 'a' | 11 => 'b'
  | 12 => 'c' | 13 => 'd' | 14 => 'e' | _ => 'f'

/-- Two lower-case hex digits of a byte. -/
def hex2 (n : Nat) : List Char := [hexChar (n / 16), hexChar n]

/-- Quote character CPython `repr` picks for a string. -/
def reprQuote (s : List Char) : Char :=
  if s.contains '\x27' && !(s.contains '"') then '"' else '\x27'

/-- CPython `repr` escaping of one character (ASCII fragment; this model
only ever applies it to ASCII text from the repository). -/
def reprEscapeChar (q c : Char) : List Char :=
  if c = '\\' || c = q then ['\\', c]
  else if c = '\n' then ['\\', 'n']
  else if c = '\r' then ['\\', 'r']
  else if c = '\t' then ['\\', 't']
  else if c.toNat < 32 || c.toNat = 127 then '\\' :: 'x' :: hex2 c.toNat
  else [c]

/-- CPython `repr` of a string. -/
def reprStr (s : String) : String :=
  let q := reprQuote s.data
  String.mk (q :: (s.data.flatMap (reprEscapeChar q)) ++ [q])

mutual

/-- Python `repr` of a value (as used inside containers by `str`). -/
def pyRepr : PyVal → String
  | .pnone => "None"
  | .pbool true => "True"
  | .pbool false => "False"
  | .pint n => toString n
  | .pstr s => reprStr s
  | .plist xs => "[" ++ pyReprItems xs ++ "]"
  | .pdict kvs => "\x7b" ++ pyReprFields kvs ++ "\x7d"

/-- Comma-separated `repr`s of list items. -/
def pyReprItems : List PyVal → String
  | [] => ""
  | [x] => pyRepr x
  | x :: y :: rest => pyRepr x ++ ", " ++ pyReprItems (y :: rest)

/-- Comma-separated `repr key: repr value` pairs of dict fields. -/
def pyReprFields : List (String × PyVal) → String
  | [] => ""
  | [kv] => reprStr kv.1 ++ ": " ++ pyRepr kv.2
  | kv :: kv2 :: rest =>
      reprStr kv.1 ++ ": " ++ pyRepr kv.2 ++ ", " ++ pyReprFields (kv2 :: rest)

end

/-- Python `str` of a value. -/
def pyStrTop : PyVal → String
  | .pstr s => s
  | v => pyRepr v

/-- Substring test on character lists (Python `needle in haystack`). -/
def containsSub (hay needle : List Char) : Bool :=
  match hay with
  | [] => needle.isEmpty
  | _ :: t => needle.isPrefixOf hay || containsSub t needle

/-- Python `sub in s` on strings. -/
def strContains (s sub : String) : Bool :=
  containsSub s.data sub.data

/-!
## Orchestrator (src/agents/orchestrator_agent_fixed.py)

The LLM client is passed in as an `Except Unit String` oracle (the raw
completion text or a failure); everything else in `_integrate_plan` and its
helpers is deterministic and embedded directly.
-/

/-- `HealthPlanRequest` from src/utils/models.py (string/list parameter bag). -/
structure HealthPlanRequest where
  population : String
  goals : List String
  constraints : List String
  timeline : String
  fitness_level : String
  preferences : List String
  equipment_available : List String := []

/-- `population.lower().replace(" ", "_").replace("-", "_")` (character-wise,
which agrees with the Python chain of `lower` then the two `replace`s). -/
def populationSlug (s : String) : String :=
  String.mk (s.data.map (fun c => if c = ' ' || c = '-' then '_' else c.toLower))

/-- `goal.lower().replace(" ", "_")` (only spaces are replaced for goals). -/
def goalSlug (s : String) : String :=
  String.mk (s.data.map (fun c => if c = ' ' then '_' else c.toLower))

/-- Python `sep.join(parts)`. -/
def strJoin (sep : String) : List String → String
  | [] => ""
  | [x] => x
  | x :: y :: t => x ++ sep ++ strJoin sep (y :: t)

/-- `_generate_plan_id`: population slug, then `_`, then the slugs of the
first two goals joined by `_`. -/
def generate_plan_id (r : HealthPlanRequest) : String :=
  populationSlug r.population ++ "_" ++ strJoin "_" ((r.goals.take 2).map goalSlug)

/-- The hardcoded default weekly split of `_create_weekly_split`. -/
def defaultWeeklySplit : List PyVal :=
  [.pstr "Mon: Full Body A", .pstr "Tue: Rest", .pstr "Wed: Full Body B",
   .pstr "Thu: Rest", .pstr "Fri: Full Body C", .pstr "Sat: Active Recovery",
   .pstr "Sun: Rest"]

/-- `_create_weekly_split`: the `weekly_split` value verbatim when the key is
present, else the hardcoded default. -/
def create_weekly_split (fitness_plan : List (String × PyVal)) : PyVal :=
  match dictGet fitness_plan "weekly_split" with
  | some v => v
  | none => .plist defaultWeeklySplit

/-- A `{"title": ..., "text": ...}` rule dict. -/
def mkRule (title : String) (text : PyVal) : PyVal :=
  .pdict [("title", .pstr title), ("text", text)]

/-- `_create_global_rules` of the orchestrator: safety guidelines then
training principles, with a hardcoded default pair when both are absent. -/
def create_global_rules (fitness_plan safety_report : List (String × PyVal)) :
    Except String (List PyVal) := do
  let safetyRules ←
    match dictGet safety_report "safety_guidelines" with
    | some v => do
        let gs ← iterElems v
        pure (gs.map (mkRule "Safety"))
    | none => pure []
  let fitnessRules ←
    match dictGet fitness_plan "training_principles" with
    | some v => do
        let ps ← iterElems v
        pure (ps.map (mkRule "Training"))
    | none => pure []
  let rules := safetyRules ++ fitnessRules
  if rules.isEmpty then
    pure [mkRule "Progression" (.pstr "Start with lighter weights and gradually increase as you become comfortable with the movements."),
          mkRule "Form" (.pstr "Focus on proper form and technique before increasing intensity or weight.")]
  else
    pure rules

/-- The shared inner loop body of `_create_days_structure`: one exercise,
1-based index `i`, formatted as `"i) Name — Sets×Reps (notes)"`. -/
def formatExercise (i : Nat) (e : PyVal) : String :=
  match e with
  | .pdict ed =>
      let name := dictGetD ed "name" (.pstr "Exercise")
      let sets := dictGetD ed "sets" (.pint 3)
      let reps := dictGetD ed "reps" (.pstr "8-12")
      let notes := dictGetD ed "notes" (.pstr "")
      let base := toString i ++ ") " ++ pyStrTop name ++ " — " ++
        pyStrTop sets ++ "×" ++ pyStrTop reps
      if pyTruthy notes then base ++ " (" ++ pyStrTop notes ++ ")" else base
  | _ => toString i ++ ") " ++ pyStrTop e

/-- `enumerate(exercises, 1)` plus the loop body. -/
def formatExercises (es : List PyVal) : List PyVal :=
  (List.enumFrom 1 es).map (fun p => .pstr (formatExercise p.1 p.2))

/-- The first two branch bodies of `_create_days_structure`: keep only
non-empty list values and format them (`isinstance(exercises, list) and
exercises`). -/
def daysFromItems (items : List (String × PyVal)) : List (String × PyVal) :=
  items.foldl (fun days kv =>
    match kv.2 with
    | .plist (x :: xs) => dictSet days kv.1 (.plist (formatExercises (x :: xs)))
    | _ => days) []

/-- The third branch body of `_create_days_structure`: no list guard, so the
day value is iterated directly (a non-iterable raises `TypeError`). -/
def daysFromExercisesDict (ed : List (String × PyVal)) :
    Except String (List (String × PyVal)) :=
  ed.foldlM (fun days kv => do
    let es ← iterElems kv.2
    pure (dictSet days kv.1 (.plist (formatExercises es)))) []

/-- The hardcoded default single-day structure of `_create_days_structure`. -/
def defaultDays : List (String × PyVal) :=
  [("Full Body A", .plist
    [.pstr "1) Bodyweight squats — 3×10-15",
     .pstr "2) Push-ups — 3×5-10",
     .pstr "3) Walking lunges — 2×10/leg",
     .pstr "4) Plank — 3×30 seconds"])]

/-- The branch dispatch of `_create_days_structure` (before the final
default check): `days`, then the legacy organized keys, then `exercises`. -/
def rawDaysStructure (fitness_plan : List (String × PyVal)) :
    Except String (List (String × PyVal)) :=
  if hasKey fitness_plan "days" then
    match dictGet fitness_plan "days" with
    | some (.pdict dd) => .ok (daysFromItems dd)
    | some _ => .error "AttributeError: object has no attribute items"
    | none => .ok []
  else if hasKey fitness_plan "Full Body A" || hasKey fitness_plan "Foundation Phase"
      || hasKey fitness_plan "Mobility & Balance" then
    .ok (daysFromItems fitness_plan)
  else if hasKey fitness_plan "exercises" then
    match dictGet fitness_plan "exercises" with
    | some (.pdict ed) => daysFromExercisesDict ed
    | _ => .ok []
  else
    .ok []

/-- `_create_days_structure`: branch dispatch plus the hardcoded default when
no day survived. -/
def create_days_structure (fitness_plan : List (String × PyVal)) :
    Except String (List (String × PyVal)) :=
  match rawDaysStructure fitness_plan with
  | .error e => .error e
  | .ok days => .ok (if days.isEmpty then defaultDays else days)

/-- `_create_conditioning_recovery`: recovery protocols and conditioning
guidelines, with a hardcoded default triple when both are absent. -/
def create_conditioning_recovery (fitness_plan _safety_report : List (String × PyVal)) :
    Except String (List PyVal) := do
  let r1 ←
    match dictGet fitness_plan "recovery_protocols" with
    | some v => iterElems v
    | none => pure []
  let r2 ←
    match dictGet fitness_plan "conditioning_guidelines" with
    | some v => iterElems v
    | none => pure []
  let items := r1 ++ r2
  if items.isEmpty then
    pure [.pstr "Include 10-15 minutes of daily mobility work",
          .pstr "Prioritize sleep and stress management",
          .pstr "Listen to your body and rest when needed"]
  else
    pure items

/-- `_create_nutrition_section`: field renames with hardcoded defaults. -/
def create_nutrition_section (nutrition_plan : List (String × PyVal)) :
    List (String × PyVal) :=
  [("goal", dictGetD nutrition_plan "nutritional_goals" (.pstr "Support overall health and fitness goals")),
   ("calories", dictGetD nutrition_plan "calorie_target" (.pstr "Maintenance calories")),
   ("protein", dictGetD nutrition_plan "protein_target" (.pstr "1.6-2.2 g/kg/day")),
   ("carbohydrate", dictGetD nutrition_plan "carb_target" (.pstr "3-6 g/kg/day")),
   ("fat", dictGetD nutrition_plan "fat_target" (.pstr "0.6-1.0 g/kg/day")),
   ("timing_and_training_day_setup", dictGetD nutrition_plan "meal_timing"
     (.plist [.pstr "Eat every 3-4 hours to maintain stable energy levels",
              .pstr "Include protein and carbohydrates within 2 hours after exercise"]))]

/-- The fallback overview text of `_generate_overview` (used when the LLM
call raises). -/
def fallbackOverview (r : HealthPlanRequest) : String :=
  "\n            This comprehensive " ++ r.population ++
  " health plan is designed to help you achieve your goals of " ++
  pyRepr (.plist (r.goals.map PyVal.pstr)) ++ " over " ++ r.timeline ++
  ".\n            \n            The plan integrates evidence-based fitness programming, personalized nutrition guidance, and motivational strategies to support your journey. It\x27s specifically tailored for " ++
  r.fitness_level ++
  " fitness level and takes into account your unique constraints and preferences.\n            \n            Safety is our top priority, with built-in validation and modification protocols to ensure your well-being throughout the program. Follow the plan consistently, listen to your body, and celebrate your progress along the way.\n            "

/-- `_generate_overview`: the LLM completion, or the fallback text when the
call raises. -/
def generate_overview (r : HealthPlanRequest) (llm : Except Unit String) : String :=
  match llm with
  | .ok content => content
  | .error _ => fallbackOverview r

/-- `_create_execution_checklist`: base checklist, safety extension unless
`overall_safety == "low_risk"`, goal-specific extension when
`"core_restoration" in str(fitness_plan)`. -/
def create_execution_checklist (fitness_plan _nutrition_plan _motivation_plan
    safety_report : List (String × PyVal)) : List PyVal :=
  let base : List PyVal :=
    [.pstr "Obtain medical clearance if required",
     .pstr "Set up tracking systems for progress monitoring",
     .pstr "Prepare workout space and equipment",
     .pstr "Plan meals and grocery shopping",
     .pstr "Set up accountability systems",
     .pstr "Review and adjust plan based on progress",
     .pstr "Track key metrics and measurements",
     .pstr "Ensure adequate rest and recovery",
     .pstr "Stay hydrated and follow nutrition guidelines",
     .pstr "Celebrate small wins and progress"]
  let lowRisk : Bool :=
    match dictGet safety_report "overall_safety" with
    | some (.pstr s) => s == "low_risk"
    | _ => false
  let c1 := if lowRisk then base else base ++
    [.pstr "Monitor for any concerning symptoms",
     .pstr "Have emergency contact information readily available",
     .pstr "Consider working with a qualified professional"]
  if strContains (pyStrTop (.pdict fitness_plan)) "core_restoration" then
    c1 ++ [.pstr "Monitor abdominal separation weekly",
           .pstr "Focus on proper breathing techniques",
           .pstr "Avoid exercises that cause doming"]
  else
    c1

/-- `_integrate_plan`: assemble the seven-key frontend document under the
generated plan id. -/
def integrate_plan (r : HealthPlanRequest)
    (_research_findings fitness_plan nutrition_plan motivation_plan
      safety_report : List (String × PyVal))
    (overviewLLM : Except Unit String) :
    Except String (List (String × PyVal)) := do
  let overview := generate_overview r overviewLLM
  let weekly_split := create_weekly_split fitness_plan
  let global_rules ← create_global_rules fitness_plan safety_report
  let days ← create_days_structure fitness_plan
  let conditioning_and_recovery ← create_conditioning_recovery fitness_plan safety_report
  let nutrition := create_nutrition_section nutrition_plan
  let execution_checklist := create_execution_checklist fitness_plan nutrition_plan
    motivation_plan safety_report
  let plan_id := generate_plan_id r
  pure [(plan_id, .pdict
    [("overview", .pstr overview),
     ("weekly_split", weekly_split),
     ("global_rules", .plist global_rules),
     ("days", .pdict days),
     ("conditioning_and_recovery", .plist conditioning_and_recovery),
     ("nutrition", .pdict nutrition),
     ("execution_checklist", .plist execution_checklist)])]

/-- `generate_health_plan` (structured-request path): the five agent stages
run in sequence — each modelled as an oracle that either returns its output
mapping or raises — and any stage failure aborts the pipeline before
`_integrate_plan` runs. -/
def generate_health_plan (r : HealthPlanRequest)
    (researchR fitnessR nutritionR motivationR safetyR :
      Except String (List (String × PyVal)))
    (overviewLLM : Except Unit String) :
    Except String (List (String × PyVal)) := do
  let research ← researchR
  let fitness ← fitnessR
  let nutrition ← nutritionR
  let motivation ← motivationR
  let safety ← safetyR
  integrate_plan r research fitness nutrition motivation safety overviewLLM

/-!
## Fitness agent (src/agents/fitness_agent.py)

`FitnessAgent.process` builds its plan from the deterministic
`_organize_by_days` tables plus global rules and safety considerations; no
LLM call occurs on this path.
-/

/-- One exercise entry of the `_organize_by_days` tables (all entries carry
exactly these five string fields). -/
def mkExercise (name sets reps rest notes : String) : PyVal :=
  .pdict [("name", .pstr name), ("sets", .pstr sets), ("reps", .pstr reps),
          ("rest", .pstr rest), ("notes", .pstr notes)]

/-- The senior-fitness branch of `_organize_by_days`. -/
def seniorDays : List (String × PyVal) :=
  [("Full Body A", .plist
     [mkExercise "Gentle warm-up walk" "1" "5-10 min" "N/A" "Start slow, gradually increase pace",
      mkExercise "Bodyweight squats" "3" "8-12" "90s" "Focus on form, go as deep as comfortable",
      mkExercise "Wall push-ups" "3" "8-15" "90s" "Adjust distance from wall for difficulty",
      mkExercise "Seated rows with resistance band" "3" "10-15" "90s" "Keep back straight, pull elbows back",
      mkExercise "Heel raises" "3" "12-15" "60s" "Hold onto support if needed for balance",
      mkExercise "Gentle stretching" "1" "5-10 min" "N/A" "Focus on major muscle groups"]),
   ("Mobility & Balance", .plist
     [mkExercise "Tai Chi warm-up" "1" "10-15 min" "N/A" "Slow, controlled movements",
      mkExercise "Single-leg balance" "3" "30s each leg" "60s" "Hold onto support initially",
      mkExercise "Hip circles" "2" "10 each direction" "30s" "Gentle circular movements",
      mkExercise "Shoulder rolls" "2" "10 forward, 10 backward" "30s" "Full range of motion",
      mkExercise "Ankle mobility" "2" "10 each foot" "30s" "Point and flex toes",
      mkExercise "Cool-down walk" "1" "5-10 min" "N/A" "Gradual slowdown"]),
   ("Full Body B", .plist
     [mkExercise "Light cardio warm-up" "1" "8-10 min" "N/A" "Walking, cycling, or swimming",
      mkExercise "Step-ups" "3" "8-12 each leg" "90s" "Use low step, focus on control",
      mkExercise "Modified plank" "3" "20-40s" "90s" "Knees down if needed",
      mkExercise "Seated shoulder press" "3" "8-12" "90s" "Light weights, full range of motion",
      mkExercise "Seated leg extensions" "3" "10-15" "90s" "Slow and controlled",
      mkExercise "Gentle yoga flow" "1" "8-10 min" "N/A" "Sun salutation variations"]),
   ("Active Recovery", .plist
     [mkExercise "Gentle walking" "1" "20-30 min" "N/A" "Conversational pace",
      mkExercise "Light stretching" "1" "10-15 min" "N/A" "Hold each stretch 20-30s",
      mkExercise "Deep breathing" "1" "5 min" "N/A" "4-7-8 breathing pattern",
      mkExercise "Foam rolling" "1" "10 min" "N/A" "Gentle pressure on major muscles"]),
   ("Full Body C", .plist
     [mkExercise "Dynamic warm-up" "1" "8-10 min" "N/A" "Arm circles, hip swings, ankle rolls",
      mkExercise "Chair squats" "3" "10-15" "90s" "Sit and stand, use chair for safety",
      mkExercise "Standing rows" "3" "10-15" "90s" "Resistance band or light weights",
      mkExercise "Side leg raises" "3" "8-12 each leg" "90s" "Hold onto support for balance",
      mkExercise "Chest stretch" "3" "30s hold" "60s" "Doorway stretch or corner stretch",
      mkExercise "Cool-down stretches" "1" "8-10 min" "N/A" "Focus on tight areas"]),
   ("Rest Day", .plist
     [mkExercise "Light walking" "1" "15-20 min" "N/A" "Optional, very light pace",
      mkExercise "Gentle stretching" "1" "10 min" "N/A" "Only if feeling good",
      mkExercise "Restorative activities" "1" "As desired" "N/A" "Reading, meditation, light hobbies"])]

/-- The postpartum branch of `_organize_by_days`. -/
def postpartumDays : List (String × PyVal) :=
  [("Foundation Phase", .plist
     [mkExercise "Pelvic floor activation" "3" "5-10" "60s" "Kegels, gentle contractions",
      mkExercise "Gentle walking" "1" "15-20 min" "N/A" "Flat surface, comfortable pace",
      mkExercise "Pelvic tilts" "3" "10-15" "60s" "Lie on back, gentle movements",
      mkExercise "Deep breathing" "1" "5 min" "N/A" "Diaphragmatic breathing",
      mkExercise "Gentle stretching" "1" "8-10 min" "N/A" "Focus on major muscle groups"]),
   ("Progressive Phase", .plist
     [mkExercise "Pelvic floor exercises" "3" "10" "60s" "Progressive intensity",
      mkExercise "Bird dog" "3" "8-12" "90s" "Start on hands and knees",
      mkExercise "Modified plank" "3" "20-30s" "90s" "Knees down, build endurance",
      mkExercise "Gentle squats" "3" "8-12" "90s" "Use support if needed",
      mkExercise "Walking intervals" "3" "5 min" "2 min" "Gradually increase pace"]),
   ("Integration Phase", .plist
     [mkExercise "Dead bug" "3" "10-15" "90s" "Core stability focus",
      mkExercise "Bodyweight squats" "3" "10-15" "90s" "Full range of motion",
      mkExercise "Modified push-ups" "3" "5-10" "90s" "Knees down or wall push-ups",
      mkExercise "Walking lunges" "2" "8-10 each leg" "90s" "Light and controlled",
      mkExercise "Core stabilization" "3" "30s hold" "60s" "Plank variations"])]

/-- The general-fitness branch of `_organize_by_days`. -/
def generalDays : List (String × PyVal) :=
  [("Full Body A", .plist
     [mkExercise "Dynamic warm-up" "1" "8-10 min" "N/A" "Jumping jacks, arm circles, hip swings",
      mkExercise "Squats" "4" "8-12" "120s" "Focus on form, progressive overload",
      mkExercise "Push-ups" "3" "8-15" "90s" "Modify difficulty as needed",
      mkExercise "Rows" "3" "10-12" "90s" "Dumbbell or resistance band",
      mkExercise "Plank" "3" "30-60s" "60s" "Build core endurance",
      mkExercise "Cool-down stretches" "1" "8-10 min" "N/A" "Major muscle groups"]),
   ("Cardio & Mobility", .plist
     [mkExercise "Light cardio" "1" "20-25 min" "N/A" "Walking, cycling, or swimming",
      mkExercise "Dynamic stretching" "1" "10-15 min" "N/A" "Hip swings, leg swings, arm circles",
      mkExercise "Mobility work" "1" "10-15 min" "N/A" "Shoulder, hip, and ankle mobility"]),
   ("Full Body B", .plist
     [mkExercise "Warm-up" "1" "8-10 min" "N/A" "Light cardio and dynamic stretches",
      mkExercise "Lunges" "3" "10-12 each leg" "90s" "Forward, reverse, and walking variations",
      mkExercise "Dips" "3" "8-12" "90s" "Chair dips or parallel bars",
      mkExercise "Pull-ups/Assisted" "3" "5-10" "120s" "Use assistance if needed",
      mkExercise "Russian twists" "3" "20-30" "60s" "Core rotation work",
      mkExercise "Cool-down" "1" "8-10 min" "N/A" "Static stretching"]),
   ("Active Recovery", .plist
     [mkExercise "Light walking" "1" "25-30 min" "N/A" "Conversational pace",
      mkExercise "Gentle stretching" "1" "15-20 min" "N/A" "Hold stretches 30-60s",
      mkExercise "Foam rolling" "1" "10-15 min" "N/A" "Major muscle groups"]),
   ("Full Body C", .plist
     [mkExercise "Warm-up" "1" "8-10 min" "N/A" "Dynamic movements and light cardio",
      mkExercise "Deadlift variation" "3" "8-12" "120s" "Romanian or single-leg",
      mkExercise "Overhead press" "3" "8-12" "90s" "Dumbbell or barbell",
      mkExercise "Lat pulldowns" "3" "10-12" "90s" "Focus on lat engagement",
      mkExercise "Core circuit" "3" "30s each" "60s" "Plank, side plank, dead bug",
      mkExercise "Cool-down" "1" "8-10 min" "N/A" "Static stretching"]),
   ("Rest Day", .plist
     [mkExercise "Light activity" "1" "15-20 min" "N/A" "Optional light walking or stretching",
      mkExercise "Recovery focus" "1" "As needed" "N/A" "Sleep, hydration, nutrition"])]

/-- `_organize_by_days`: branch on goal membership (Python `"x" in goals` is
list membership). -/
def organize_by_days (goals _constraints : List String) (_fitness_level : String) :
    List (String × PyVal) :=
  if goals.contains "senior_fitness" || goals.contains "mobility"
      || goals.contains "balance" then
    seniorDays
  else if goals.contains "postpartum" || goals.contains "core_restoration" then
    postpartumDays
  else
    generalDays

/-- `FitnessAgent._create_global_rules`: research recommendations,
constraint-specific rules, then two fixed general rules. -/
def fitness_create_global_rules (research_findings : List (String × PyVal))
    (constraints : List String) : Except String (List PyVal) := do
  let recVal := dictGetD research_findings "recommendations" .pnone
  let recRules ←
    if pyTruthy recVal then do
      let recs ← iterElems recVal
      pure (recs.map (mkRule "Research-Based Recommendation"))
    else pure []
  let drRules :=
    if constraints.contains "diastasis_recti" then
      [mkRule "Core Safety" (.pstr "Stop any exercise that causes doming or bulging in the abdominal area")]
    else []
  let popRules :=
    if constraints.contains "pelvic_organ_prolapse" then
      [mkRule "Pelvic Floor Protection" (.pstr "Avoid exercises that increase intra-abdominal pressure")]
    else []
  pure (recRules ++ drRules ++ popRules ++
    [mkRule "General Safety" (.pstr "Stop if you experience pain, dizziness, or unusual symptoms"),
     mkRule "Progression" (.pstr "Only progress when current level feels comfortable and manageable")])

/-- `FitnessAgent._add_safety_considerations`. -/
def add_safety_considerations (research_findings : List (String × PyVal))
    (constraints : List String) : Except String (List PyVal) := do
  let cVal := dictGetD research_findings "contraindications" .pnone
  let fromResearch ←
    if pyTruthy cVal then iterElems cVal else pure []
  let dr :=
    if constraints.contains "diastasis_recti" then
      [PyVal.pstr "Monitor abdominal separation weekly"]
    else []
  let pop :=
    if constraints.contains "pelvic_organ_prolapse" then
      [PyVal.pstr "Consider working with pelvic floor physical therapist"]
    else []
  pure (fromResearch ++ dr ++ pop)

/-- `FitnessAgent.process`: the organized-days mapping extended with
`global_rules` and `safety_considerations`. -/
def fitness_process (research_findings : List (String × PyVal))
    (goals constraints : List String) (_timeline fitness_level : String) :
    Except String (List (String × PyVal)) := do
  let organized := organize_by_days goals constraints fitness_level
  let global_rules ← fitness_create_global_rules research_findings constraints
  let safety_considerations ← add_safety_considerations research_findings constraints
  pure (dictSet (dictSet organized "global_rules" (.plist global_rules))
    "safety_considerations" (.plist safety_considerations))

/-!
## Safety agent and contraindication checker
(src/agents/safety_agent.py, src/tools/validation_tools.py)
-/

/-- The static contraindication table of `ContraindicationCheckerTool`
(`self.contraindications.get(condition, [])`). -/
def contraindicationsFor (condition : String) : List String :=
  if condition = "diastasis_recti" then
    ["Traditional crunches", "Sit-ups", "Russian twists",
     "Planks (if separation >2cm)", "Heavy lifting"]
  else if condition = "pelvic_organ_prolapse" then
    ["Heavy lifting", "High-impact exercises", "Jumping", "Running",
     "Squats with heavy weights"]
  else if condition = "pregnancy" then
    ["Contact sports", "Scuba diving", "Hot yoga",
     "Exercises lying on back after 16 weeks", "High-impact activities"]
  else if condition = "hypertension" then
    ["Heavy lifting", "Isometric exercises", "High-intensity intervals",
     "Exercises with breath holding"]
  else []

/-- One flagged entry of `ContraindicationCheckerTool.execute`. -/
def mkFlagged (ex : PyVal) (condition : String) : PyVal :=
  .pdict [("exercise", ex), ("condition", .pstr condition),
          ("risk_level", .pstr "high")]

/-- The nested loops of `ContraindicationCheckerTool.execute`: for each
condition, flag every handed-in exercise whose name is in the table list
(`exercise in contraindicated_exercises`; a non-string value never equals a
string). -/
def flaggedExercisesOf (exercises : List PyVal) (conditions : List String) :
    List PyVal :=
  conditions.flatMap (fun c =>
    (exercises.filter (fun e =>
      match e with
      | .pstr s => (contraindicationsFor c).contains s
      | _ => false)).map (fun e => mkFlagged e c))

/-- The static alternatives table of `_generate_alternatives`. -/
def alternativesFor (condition : String) : List PyVal :=
  if condition = "diastasis_recti" then
    [.pdict [("original", .pstr "Crunches"), ("alternative", .pstr "Pelvic tilts")],
     .pdict [("original", .pstr "Sit-ups"), ("alternative", .pstr "Dead bug")],
     .pdict [("original", .pstr "Planks"), ("alternative", .pstr "Bird dog")]]
  else if condition = "pelvic_organ_prolapse" then
    [.pdict [("original", .pstr "Heavy lifting"), ("alternative", .pstr "Light resistance training")],
     .pdict [("original", .pstr "Jumping"), ("alternative", .pstr "Walking")],
     .pdict [("original", .pstr "Running"), ("alternative", .pstr "Swimming")]]
  else []

/-- The static recommendations table of `_get_safety_recommendations`. -/
def safetyRecsFor (condition : String) : List PyVal :=
  if condition = "diastasis_recti" then
    [.pstr "Focus on transverse abdominis activation",
     .pstr "Avoid exercises that cause doming",
     .pstr "Progress gradually with core work"]
  else if condition = "pelvic_organ_prolapse" then
    [.pstr "Prioritize pelvic floor strengthening",
     .pstr "Avoid exercises that increase intra-abdominal pressure",
     .pstr "Consider working with a pelvic floor physical therapist"]
  else []

/-- `ContraindicationCheckerTool.execute`: fully deterministic, table-driven. -/
def contraindication_checker_execute (exercises : List PyVal)
    (conditions : List String) : List (String × PyVal) :=
  let flagged := flaggedExercisesOf exercises conditions
  [("flagged_exercises", .plist flagged),
   ("safe_alternatives", .plist
     (if flagged.isEmpty then [] else conditions.flatMap alternativesFor)),
   ("overall_risk", .pstr (if flagged.isEmpty then "low" else "high")),
   ("recommendations", .plist (conditions.flatMap safetyRecsFor))]

/-- `SafetyAgent._extract_exercises`: collects exercise names only from the
`exercises` sub-mapping of the fitness plan (dict entries contribute their
`name` value when present; plain strings contribute themselves). -/
def extract_exercises (fitness_plan : List (String × PyVal)) :
    Except String (List PyVal) :=
  match dictGet fitness_plan "exercises" with
  | some (.pdict dd) =>
      dd.foldlM (fun acc kv => do
        let day_exercises ← iterElems kv.2
        pure (acc ++ day_exercises.foldl (fun a e =>
          match e with
          | .pdict ed => if hasKey ed "name" then a ++ [dictGetD ed "name" .pnone] else a
          | .pstr s => a ++ [.pstr s]
          | _ => a) [])) []
  | some _ => .error "AttributeError: object has no attribute items"
  | none => .ok []

/-- The `contraindications` field of the report built by
`SafetyAgent.process`: `_extract_exercises` fed into the checker, the
report's field being the checker's `flagged_exercises`. -/
def safety_contraindications (fitness_plan : List (String × PyVal))
    (constraints : List String) : Except String (List PyVal) := do
  let exercises ← extract_exercises fitness_plan
  pure (flaggedExercisesOf exercises constraints)

/-- Modelled from the claim wording, for comparison with the code: the
"exercises of the fitness plan" in the sense of C4 — every exercise name
occurring in any list-valued entry of the plan itself (the `name` field of
exercise dicts, or a plain string entry). -/
def specPlanExerciseNames (fitness_plan : List (String × PyVal)) : List String :=
  fitness_plan.flatMap (fun kv =>
    match kv.2 with
    | .plist es => es.foldl (fun a e =>
        match e with
        | .pdict ed =>
            match dictGet ed "name" with
            | some (.pstr s) => a ++ [s]
            | _ => a
        | .pstr s => a ++ [s]
        | _ => a) []
    | _ => [])

/-!
## JSON text model (Python stdlib `json.dumps` / `json.loads`)

The repository's "extract_json" logic (simple_workout_planner.py lines
114-139, integrated_workout_planner.py lines 160-185) slices the completion
text from the first `{` to the last `}` and hands the slice to
`json.loads`.  The two stdlib functions are modelled here over `PyVal`:
`json_dumps` follows the CPython defaults (separators `", "` and `": "`,
`ensure_ascii=True` with surrogate pairs for astral characters), and
`json_loads` is a recursive-descent parser of that grammar (JSON numbers
are modelled as integers — floats are outside this model; a lone escaped
surrogate makes the parse fail, since Lean characters are scalar values).
-/

/-- Decimal digit of `n % 10`. -/
def decChar (n : Nat) : Char :=
  match n % 10 with
  | 0 => '0' | 1 => '1' | 2 => '2' | 3 => '3' | 4 => '4'
  | 5 => '5' | 6 => '6' | 7 => '7' | 8 => '8' | _ => '9'

/-- Decimal digits (most significant first) of a natural number. -/
def natDec (n : Nat) : List Char :=
  if _h : n < 10 then [decChar n]
  else natDec (n / 10) ++ [decChar (n % 10)]
termination_by n
decreasing_by exact Nat.div_lt_self (by omega) (by omega)

/-- Decimal digits of an integer, with a leading minus when negative. -/
def intDec (n : Int) : List Char :=
  if n < 0 then '-' :: natDec (-n).toNat else natDec n.toNat

/-- Four lower-case hex digits (`%04x`) of `n` (for `n < 65536`). -/
def hex4 (n : Nat) : List Char :=
  [hexChar (n / 4096), hexChar (n / 256), hexChar (n / 16), hexChar n]

/-- CPython `json.dumps` escaping of one character with `ensure_ascii=True`:
shorthand escapes, printable-ASCII passthrough, `\uXXXX` otherwise, with a
surrogate pair for characters above the basic plane. -/
def jsonEscapeChar (c : Char) : List Char :=
  if c = '"' then ['\\', '"']
  else if c = '\\' then ['\\', '\\']
  else if c = '\n' then ['\\', 'n']
  else if c = '\t' then ['\\', 't']
  else if c = '\r' then ['\\', 'r']
  else if c.toNat = 8 then ['\\', 'b']
  else if c.toNat = 12 then ['\\', 'f']
  else if 32 ≤ c.toNat && c.toNat < 127 then [c]
  else if c.toNat < 65536 then '\\' :: 'u' :: hex4 c.toNat
  else
    ('\\' :: 'u' :: hex4 (55296 + (c.toNat - 65536) / 1024)) ++
    ('\\' :: 'u' :: hex4 (56320 + (c.toNat - 65536) % 1024))

/-- A JSON string literal: quote, escaped characters, quote. -/
def jsonQuoted (s : String) : List Char :=
  '"' :: s.data.flatMap jsonEscapeChar ++ ['"']

mutual

/-- `json.dumps` with default separators, as a character list. -/
def dumpVal : PyVal → List Char
  | .pnone => ['n', 'u', 'l', 'l']
  | .pbool true => ['t', 'r', 'u', 'e']
  | .pbool false => ['f', 'a', 'l', 's', 'e']
  | .pint n => intDec n
  | .pstr s => jsonQuoted s
  | .plist xs => '[' :: dumpItems xs ++ [']']
  | .pdict kvs => '\x7b' :: dumpFields kvs ++ ['\x7d']

/-- List items joined by `", "`. -/
def dumpItems : List PyVal → List Char
  | [] => []
  | [x] => dumpVal x
  | x :: y :: rest => dumpVal x ++ ',' :: ' ' :: dumpItems (y :: rest)

/-- Dict fields `"key": value` joined by `", "`. -/
def dumpFields : List (String × PyVal) → List Char
  | [] => []
  | [(k, v)] => jsonQuoted k ++ ':' :: ' ' :: dumpVal v
  | (k, v) :: kv :: rest =>
      jsonQuoted k ++ ':' :: ' ' :: dumpVal v ++ ',' :: ' ' :: dumpFields (kv :: rest)

end

/-- `json.dumps` as a string. -/
def json_dumps (v : PyVal) : String := String.mk (dumpVal v)

/-- JSON whitespace test. -/
def isWsChar (c : Char) : Bool :=
  c = ' ' || c = '\t' || c = '\n' || c = '\r'

/-- Skip leading JSON whitespace. -/
def skipWs : List Char → List Char
  | [] => []
  | c :: rest => if isWsChar c then skipWs rest else c :: rest

/-- Value of a decimal digit character. -/
def digVal (c : Char) : Option Nat :=
  if 48 ≤ c.toNat && c.toNat ≤ 57 then some (c.toNat - 48) else none

/-- Whether the input starts with a decimal digit. -/
def digitHead : List Char → Bool
  | c :: _ => (digVal c).isSome
  | [] => false

/-- Consume a maximal run of decimal digits, folding them onto `acc`. -/
def parseDigits (acc : Nat) : List Char → Nat × List Char
  | [] => (acc, [])
  | c :: rest =>
      match digVal c with
      | some d => parseDigits (acc * 10 + d) rest
      | none => (acc, c :: rest)

/-- Parse a non-empty digit run into a natural number. -/
def parsePosInt (cs : List Char) : Option (Nat × List Char) :=
  if digitHead cs then some (parseDigits 0 cs) else none

/-- Value of a hexadecimal digit character (either case). -/
def hexVal (c : Char) : Option Nat :=
  if 48 ≤ c.toNat && c.toNat ≤ 57 then some (c.toNat - 48)
  else if 97 ≤ c.toNat && c.toNat ≤ 102 then some (c.toNat - 87)
  else if 65 ≤ c.toNat && c.toNat ≤ 70 then some (c.toNat - 55)
  else none

/-- Value of four hexadecimal digit characters. -/
def hex4Val (a b c d : Char) : Option Nat := do
  let va ← hexVal a
  let vb ← hexVal b
  let vc ← hexVal c
  let vd ← hexVal d
  pure (((va * 16 + vb) * 16 + vc) * 16 + vd)

/-- The single-character JSON escapes. -/
def unescapeShort (e : Char) : Option Char :=
  if e = '"' then some '"'
  else if e = '\\' then some '\\'
  else if e = '/' then some '/'
  else if e = 'b' then some '\x08'
  else if e = 'f' then some '\x0c'
  else if e = 'n' then some '\n'
  else if e = 'r' then some '\r'
  else if e = 't' then some '\t'
  else none

mutual

/-- Parse the body of a JSON string literal up to the closing quote,
returning the decoded characters and the remaining input.  Escaped
surrogate pairs are recombined; a lone surrogate fails (Lean characters
are unicode scalar values); raw control characters fail (strict mode). -/
def parseStringBody : List Char → Option (List Char × List Char)
  | [] => none
  | c :: rest =>
    if c = '"' then some ([], rest)
    else if c = '\\' then parseEsc rest
    else if c.toNat < 32 then none
    else (parseStringBody rest).map (fun p => (c :: p.1, p.2))
termination_by structural l => l

/-- Parse one escape sequence after a backslash, then the rest of the
string body. -/
def parseEsc : List Char → Option (List Char × List Char)
  | [] => none
  | e :: rest =>
    if e = 'u' then parseU rest
    else
      match unescapeShort e with
      | some uc => (parseStringBody rest).map (fun p => (uc :: p.1, p.2))
      | none => none
termination_by structural l => l

/-- Parse the four hex digits of a `\uXXXX` escape, then (via
`parseLowSur` when the value is a high surrogate) the rest of the string
body. -/
def parseU : List Char → Option (List Char × List Char)
  | a :: b :: c :: d :: rest =>
    (match hex4Val a b c d with
     | none => none
     | some n =>
       if 55296 ≤ n && n ≤ 56319 then parseLowSur n rest
       else if 56320 ≤ n && n ≤ 57343 then none
       else (parseStringBody rest).map (fun p => (Char.ofNat n :: p.1, p.2)))
  | _ => none
termination_by structural l => l

/-- After a high surrogate `n`, parse the escaped low surrogate and
recombine, then the rest of the string body. -/
def parseLowSur (n : Nat) : List Char → Option (List Char × List Char)
  | b1 :: b2 :: a2 :: b3 :: c2 :: d2 :: rest2 =>
    if b1 = '\\' && b2 = 'u' then
      match hex4Val a2 b3 c2 d2 with
      | none => none
      | some m =>
        if 56320 ≤ m && m ≤ 57343 then
          (parseStringBody rest2).map (fun p =>
            (Char.ofNat (65536 + (n - 55296) * 1024 + (m - 56320)) :: p.1, p.2))
        else none
    else none
  | _ => none
termination_by structural l => l

end

mutual

/-- Fuel-indexed recursive-descent JSON value parser. -/
def parseVal : Nat → List Char → Option (PyVal × List Char)
  | 0, _ => none
  | n + 1, input =>
    match skipWs input with
    | [] => none
    | c :: rest =>
      if c = 'n' then
        match rest with
        | 'u' :: 'l' :: 'l' :: rest2 => some (.pnone, rest2)
        | _ => none
      else if c = 't' then
        match rest with
        | 'r' :: 'u' :: 'e' :: rest2 => some (.pbool true, rest2)
        | _ => none
      else if c = 'f' then
        match rest with
        | 'a' :: 'l' :: 's' :: 'e' :: rest2 => some (.pbool false, rest2)
        | _ => none
      else if c = '"' then
        (parseStringBody rest).map (fun p => (.pstr (String.mk p.1), p.2))
      else if c = '[' then
        match skipWs rest with
        | ']' :: rest2 => some (.plist [], rest2)
        | rest2 => (parseItems n rest2).map (fun p => (.plist p.1, p.2))
      else if c = '\x7b' then
        match skipWs rest with
        | '\x7d' :: rest2 => some (.pdict [], rest2)
        | rest2 => (parseFields n rest2).map (fun p => (.pdict p.1, p.2))
      else if c = '-' then
        (parsePosInt rest).map (fun p => (.pint (-(p.1 : Int)), p.2))
      else
        (parsePosInt (c :: rest)).map (fun p => (.pint (p.1 : Int), p.2))

/-- Parse the items of a non-empty JSON array, up to the closing bracket. -/
def parseItems : Nat → List Char → Option (List PyVal × List Char)
  | 0, _ => none
  | n + 1, input =>
    match parseVal n input with
    | none => none
    | some (v, rest) =>
      match skipWs rest with
      | ',' :: rest2 => (parseItems n rest2).map (fun p => (v :: p.1, p.2))
      | ']' :: rest2 => some ([v], rest2)
      | _ => none

/-- Parse the fields of a non-empty JSON object, up to the closing brace. -/
def parseFields : Nat → List Char → Option (List (String × PyVal) × List Char)
  | 0, _ => none
  | n + 1, input =>
    match skipWs input with
    | '"' :: rest =>
      (match parseStringBody rest with
       | none => none
       | some (k, rest2) =>
         match skipWs rest2 with
         | ':' :: rest3 =>
           (match parseVal n rest3 with
            | none => none
            | some (v, rest4) =>
              match skipWs rest4 with
              | ',' :: rest5 =>
                  (parseFields n rest5).map (fun p => ((String.mk k, v) :: p.1, p.2))
              | '\x7d' :: rest5 => some ([(String.mk k, v)], rest5)
              | _ => none)
         | _ => none)
    | _ => none

end

/-- `json.loads`: parse a complete JSON document (with enough fuel for any
document of this length); trailing non-whitespace raises. -/
def json_loads (s : String) : Option PyVal :=
  match parseVal (s.length + 1) s.data with
  | some (v, rest) => if (skipWs rest).isEmpty then some v else none
  | none => none

/-- Python `text.find(ch)`. -/
def pyFind (cs : List Char) (c : Char) : Int :=
  match cs.findIdx? (fun x => x == c) with
  | some i => (i : Int)
  | none => -1

/-- Python `text.rfind(ch)`. -/
def pyRfind (cs : List Char) (c : Char) : Int :=
  match cs.reverse.findIdx? (fun x => x == c) with
  | some i => ((cs.length - 1 - i : Nat) : Int)
  | none => -1

/-- The inline JSON extraction of the planners: slice the text from the
index of the first `{` to the index of the last `}` (inclusive) and parse
the slice; absence of braces or a parse failure raises (modelled `none`). -/
def extract_json (content : String) : Option PyVal :=
  let cs := content.data
  let start_idx := pyFind cs '\x7b'
  let end_idx := pyRfind cs '\x7d' + 1
  if start_idx != -1 && end_idx != 0 then
    json_loads (String.mk ((cs.drop start_idx.toNat).take (end_idx.toNat - start_idx.toNat)))
  else
    none

/-- From the claim wording: the characters of a string, none of which is a
brace. -/
def braceFreeStr (s : String) : Bool :=
  s.data.all (fun c => !(c = '\x7b' || c = '\x7d'))

mutual

/-- From the claim wording: a value whose string components (keys included)
contain no brace characters, recursively. -/
def braceFree : PyVal → Bool
  | .pstr s => braceFreeStr s
  | .plist xs => braceFreeItems xs
  | .pdict kvs => braceFreeFields kvs
  | _ => true

/-- `braceFree` over list items. -/
def braceFreeItems : List PyVal → Bool
  | [] => true
  | x :: xs => braceFree x && braceFreeItems xs

/-- `braceFree` over dict fields. -/
def braceFreeFields : List (String × PyVal) → Bool
  | [] => true
  | kv :: kvs => braceFreeStr kv.1 && braceFree kv.2 && braceFreeFields kvs

end

/-!
## Integrated workout planner (integrated_workout_planner.py) and the
web-facing POST /api/v1/plans/generate endpoint (railway_main.py)

The LLM oracle yields the (already `.strip()`-ed) completion text or a
failure; `now` is `datetime.now().strftime("%Y%m%d_%H%M%S")` and `nowIso`
is `datetime.now().isoformat()`, passed in explicitly since they are reads
of the wall clock; `dbInsertOk` is the outcome of the Supabase insert.
-/

/-- `IntegratedWorkoutPlanner._generate_workout_plan`: brace-slice the
completion, parse it, then attach the timestamp-based `plan_id` and the
`generation_method` tag; every failure raises. -/
def generate_workout_plan (llm : Except Unit String) (now : String)
    (_request : List (String × PyVal)) : Except String (List (String × PyVal)) :=
  match llm with
  | .error _ => .error "OpenAI call failed"
  | .ok content =>
    let cs := content.data
    let start_idx := pyFind cs '\x7b'
    let end_idx := pyRfind cs '\x7d' + 1
    if start_idx != -1 && end_idx != 0 then
      match json_loads (String.mk ((cs.drop start_idx.toNat).take (end_idx.toNat - start_idx.toNat))) with
      | some (.pdict kvs) =>
          .ok (dictSet (dictSet kvs "plan_id"
              (.pstr ("integrated_workout_" ++ now)))
            "generation_method" (.pstr "Integrated_OpenAI_Supabase"))
      | some _ => .error "TypeError: object does not support item assignment"
      | none => .error "JSONDecodeError"
    else
      .error "No JSON found in response"

/-- Persistence state visible to the integrated planner: the Supabase
`workout_plans` rows and the local backup files. -/
structure IWState where
  supabaseRows : List (List (String × PyVal))
  nextId : Int
  localFiles : List (String × PyVal)

/-- The record `_store_plan_in_supabase` builds: mandatory `plan_id` and
`user_id`, the optional fields when present, then the full `plan_data`
dump. -/
def mkSupabaseData (wp : List (String × PyVal)) : List (String × PyVal) :=
  let base := [("plan_id", dictGetD wp "plan_id" .pnone),
               ("user_id", dictGetD wp "user_id" .pnone)]
  let d1 := if hasKey wp "population" then
      base ++ [("population", dictGetD wp "population" .pnone)] else base
  let d2 := if hasKey wp "goals" then
      d1 ++ [("goals", .pstr (json_dumps (dictGetD wp "goals" (.plist []))))] else d1
  let d3 := if hasKey wp "timeline" then
      d2 ++ [("timeline", dictGetD wp "timeline" .pnone)] else d2
  let d4 := if hasKey wp "fitness_level" then
      d3 ++ [("fitness_level", dictGetD wp "fitness_level" .pnone)] else d3
  let d5 := if hasKey wp "generation_method" then
      d4 ++ [("generation_method", dictGetD wp "generation_method" .pnone)] else d4
  d5 ++ [("plan_data", .pstr (json_dumps (.pdict wp)))]

/-- `_store_plan_in_supabase`: raises when Supabase is not configured or
the insert fails, else appends the record and returns the stored row. -/
def store_plan_in_supabase (supabaseConfigured dbInsertOk : Bool)
    (wp : List (String × PyVal)) (st : IWState) :
    Except String (List (String × PyVal) × IWState) :=
  if !supabaseConfigured then
    .error "ValueError: Supabase not initialized"
  else
    let row := ("id", PyVal.pint st.nextId) :: mkSupabaseData wp
    if dbInsertOk then
      .ok (row, { st with supabaseRows := st.supabaseRows ++ [row],
                          nextId := st.nextId + 1 })
    else
      .error "Failed to insert into Supabase"

/-- `_save_plan_locally`: write `backup_<plan_id>.json` (the on-disk JSON
rendering is abstracted to the stored value). -/
def save_plan_locally (wp : List (String × PyVal))
    (files : List (String × PyVal)) : List (String × PyVal) :=
  let filename := "backup_" ++ pyStrTop (dictGetD wp "plan_id" (.pstr "unknown")) ++ ".json"
  dictSet files filename (.pdict wp)

/-- `generate_and_store_workout_plan`: generate (raises on failure, leaving
the state untouched), then attach metadata, best-effort Supabase store
(exceptions swallowed), then always write the local backup. -/
def generate_and_store_workout_plan (llm : Except Unit String)
    (now nowIso : String) (supabaseConfigured dbInsertOk : Bool)
    (request : List (String × PyVal)) (user_id : PyVal) (st : IWState) :
    Except String (List (String × PyVal)) × IWState :=
  match generate_workout_plan llm now request with
  | .error e => (.error e, st)
  | .ok wp0 =>
    let wp1 := dictSet (dictSet (dictSet wp0 "user_id" user_id)
      "created_at" (.pstr nowIso)) "status" (.pstr "active")
    let step :=
      if supabaseConfigured then
        match store_plan_in_supabase supabaseConfigured dbInsertOk wp1 st with
        | .ok (row, st') => (dictSet wp1 "database_id" (dictGetD row "id" .pnone), st')
        | .error _ => (wp1, st)
      else (wp1, st)
    (.ok step.1, { step.2 with localFiles := save_plan_locally step.1 step.2.localFiles })

/-- An HTTP outcome of a FastAPI route: a JSON body or an HTTPException. -/
inductive HttpResponse where
  | ok (body : List (String × PyVal))
  | httpError (status : Nat) (detail : String)

/-- The `planner_request` the endpoint builds from the request body, with
its per-field defaults. -/
def plannerRequestOf (request : List (String × PyVal)) : List (String × PyVal) :=
  [("population", dictGetD request "population" (.pstr "general")),
   ("goals", dictGetD request "goals" (.plist [])),
   ("constraints", dictGetD request "constraints" (.plist [])),
   ("timeline", dictGetD request "timeline" (.pstr "12_weeks")),
   ("fitness_level", dictGetD request "fitness_level" (.pstr "intermediate")),
   ("preferences", dictGetD request "preferences" (.plist []))]

/-- POST /api/v1/plans/generate (railway_main.py `generate_health_plan`):
the whole body runs inside one `try`; any exception — including the
`HTTPException(503)` raised when the planner is unavailable — is caught by
the catch-all and re-raised as a 500. -/
def endpoint_generate_plan (plannerAvailable : Bool) (llm : Except Unit String)
    (now nowIso : String) (supabaseConfigured dbInsertOk : Bool)
    (request : List (String × PyVal)) (st : IWState) : HttpResponse × IWState :=
  if !plannerAvailable then
    (.httpError 500 "Error generating plan: 503: Integrated planner not available", st)
  else
    let user_id := dictGetD request "user_id" (.pstr "anonymous_user")
    match generate_and_store_workout_plan llm now nowIso supabaseConfigured
        dbInsertOk (plannerRequestOf request) user_id st with
    | (.error e, st') => (.httpError 500 ("Error generating plan: " ++ e), st')
    | (.ok wp, st') =>
      (.ok [("success", .pbool true),
            ("message", .pstr "Workout plan generated and stored successfully"),
            ("data", .pdict
              [("plan_id", dictGetD wp "plan_id" .pnone),
               ("database_id", dictGetD wp "database_id" .pnone),
               ("user_id", user_id),
               ("plan", .pdict wp)])], st')

/-!
## Persistence adapter (app/services/workout_plan_service.py)

The Supabase `workout_plans` table is modelled as a list of rows; the
database-assigned columns (`id`, `created_at`, `updated_at`) come from the
store's counter and clock.  `reachable = false` makes every query raise,
which each method's `try/except` turns into its falsy default — except
`store_plan`, which re-raises.
-/

/-- One row of the `workout_plans` table. -/
structure PlanRow where
  rid : Int
  plan_id : String
  plan_data : PyVal
  metadata : PyVal
  is_active : Bool
  created_at : String
  updated_at : String

/-- The store: reachability of the backend plus table contents. -/
structure SupaStore where
  reachable : Bool
  rows : List PlanRow
  nextId : Int
  clock : String

/-- `WorkoutPlanService.store_plan`: insert with `is_active = True` and
`metadata or {}`; a backend failure is re-raised as
`"Failed to store plan: ..."`. -/
def store_plan (st : SupaStore) (plan_id : String) (plan_data : PyVal)
    (metadata : PyVal) : Except String (List (String × PyVal) × SupaStore) :=
  if !st.reachable then
    .error "Failed to store plan: connection error"
  else
    let row : PlanRow :=
      { rid := st.nextId, plan_id := plan_id, plan_data := plan_data,
        metadata := if pyTruthy metadata then metadata else .pdict [],
        is_active := true, created_at := st.clock, updated_at := st.clock }
    .ok ([("success", .pbool true), ("plan_id", .pstr row.plan_id),
          ("id", .pint row.rid), ("created_at", .pstr row.created_at)],
      { st with rows := st.rows ++ [row], nextId := st.nextId + 1 })

/-- `WorkoutPlanService.get_plan`: first row matching
`plan_id = ... and is_active = true`, else `None`; any backend error is
swallowed into `None`. -/
def get_plan (st : SupaStore) (plan_id : String) : Option PyVal :=
  if !st.reachable then none
  else
    match (st.rows.filter (fun r => r.plan_id == plan_id && r.is_active)).head? with
    | some r => some r.plan_data
    | none => none

/-- Active rows ordered by `created_at` descending (the `order` clause of
`get_all_plans`). -/
def activeRowsByCreatedDesc (st : SupaStore) : List PlanRow :=
  (st.rows.filter (fun r => r.is_active)).mergeSort
    (fun a b => decide (b.created_at ≤ a.created_at))

/-- `WorkoutPlanService.get_all_plans`: the active rows folded into a
`plan_id → plan_data` dict; errors are swallowed into the empty dict. -/
def get_all_plans (st : SupaStore) : List (String × PyVal) :=
  if !st.reachable then []
  else (activeRowsByCreatedDesc st).foldl
    (fun plans r => dictSet plans r.plan_id r.plan_data) []

/-- JSONB containment `metadata @> {"category": category}` for the flat
value used by the service. -/
def metadataHasCategory (m : PyVal) (category : String) : Bool :=
  match m with
  | .pdict kvs =>
      match dictGet kvs "category" with
      | some (.pstr s) => s == category
      | _ => false
  | _ => false

/-- `WorkoutPlanService.get_plans_by_category`. -/
def get_plans_by_category (st : SupaStore) (category : String) :
    List (String × PyVal) :=
  if !st.reachable then []
  else (st.rows.filter (fun r => r.is_active && metadataHasCategory r.metadata category)).foldl
    (fun plans r => dictSet plans r.plan_id r.plan_data) []

/-- `WorkoutPlanService.update_plan`: overwrite `plan_data` (and `metadata`
only when truthy) on every row with this `plan_id`; `True` iff some row
matched; errors swallowed into `False`. -/
def update_plan (st : SupaStore) (plan_id : String) (plan_data : PyVal)
    (metadata : PyVal) : Bool × SupaStore :=
  if !st.reachable then (false, st)
  else
    (st.rows.any (fun r => r.plan_id == plan_id),
     { st with rows := st.rows.map (fun r =>
        if r.plan_id == plan_id then
          { r with plan_data := plan_data,
                   metadata := if pyTruthy metadata then metadata else r.metadata }
        else r) })

/-- `WorkoutPlanService.deactivate_plan`: set `is_active = False` on every
row with this `plan_id`; `True` iff some row matched; errors swallowed
into `False`. -/
def deactivate_plan (st : SupaStore) (plan_id : String) : Bool × SupaStore :=
  if !st.reachable then (false, st)
  else
    (st.rows.any (fun r => r.plan_id == plan_id),
     { st with rows := st.rows.map (fun r =>
        if r.plan_id == plan_id then { r with is_active := false } else r) })

/-- `WorkoutPlanService.delete_plan`: remove every row with this
`plan_id`; `True` iff some row matched; errors swallowed into `False`. -/
def delete_plan (st : SupaStore) (plan_id : String) : Bool × SupaStore :=
  if !st.reachable then (false, st)
  else
    (st.rows.any (fun r => r.plan_id == plan_id),
     { st with rows := st.rows.filter (fun r => !(r.plan_id == plan_id)) })

/-- `WorkoutPlanService.plan_exists`: an active row with this `plan_id`
exists; errors swallowed into `False`. -/
def plan_exists (st : SupaStore) (plan_id : String) : Bool :=
  if !st.reachable then false
  else st.rows.any (fun r => r.plan_id == plan_id && r.is_active)

/-- `WorkoutPlanService.get_plan_metadata`: metadata and timestamps of the
first active row with this `plan_id`; errors swallowed into `None`. -/
def get_plan_metadata (st : SupaStore) (plan_id : String) :
    Option (List (String × PyVal)) :=
  if !st.reachable then none
  else
    match (st.rows.filter (fun r => r.plan_id == plan_id && r.is_active)).head? with
    | some r => some [("metadata", r.metadata),
                      ("created_at", .pstr r.created_at),
                      ("updated_at", .pstr r.updated_at)]
    | none => none

/-!
## Helper lemmas
-/

mutual

/-- Structural size of a value; fuel bound for the parser. -/
def psize : PyVal → Nat
  | .plist xs => 1 + psizeItems xs
  | .pdict kvs => 1 + psizeFields kvs
  | _ => 1

/-- Size of list items. -/
def psizeItems : List PyVal → Nat
  | [] => 0
  | x :: xs => 1 + psize x + psizeItems xs

/-- Size of dict fields. -/
def psizeFields : List (String × PyVal) → Nat
  | [] => 0
  | kv :: kvs => 1 + psize kv.2 + psizeFields kvs

end

theorem one_le_psize (v : PyVal) : 1 ≤ psize v := by
  cases v <;> simp [psize]

theorem char_eq_of_toNat_eq {c d : Char} (h : c.toNat = d.toNat) : c = d :=
  Char.ext (UInt32.toNat.inj h)


theorem digVal_decChar (n : Nat) : digVal (decChar n) = some (n % 10) := by
  unfold decChar
  have h : n % 10 < 10 := Nat.mod_lt _ (by omega)
  generalize hg : n % 10 = m at h ⊢
  interval_cases m <;> rfl

theorem hexVal_hexChar (n : Nat) : hexVal (hexChar n) = some (n % 16) := by
  unfold hexChar
  have h : n % 16 < 16 := Nat.mod_lt _ (by omega)
  generalize hg : n % 16 = m at h ⊢
  interval_cases m <;> rfl

theorem hex4Val_hex4 (n : Nat) (h : n < 65536) :
    hex4Val (hexChar (n / 4096)) (hexChar (n / 256)) (hexChar (n / 16)) (hexChar n) =
      some n := by
  unfold hex4Val
  rw [hexVal_hexChar, hexVal_hexChar, hexVal_hexChar, hexVal_hexChar]
  show some ((((n / 4096 % 16) * 16 + n / 256 % 16) * 16 + n / 16 % 16) * 16 + n % 16) =
    some n
  congr 1
  omega

theorem natDec_head (n : Nat) :
    ∃ c t, natDec n = c :: t ∧ (digVal c).isSome = true := by
  induction n using Nat.strong_induction_on with
  | _ n ih =>
    unfold natDec
    by_cases h : n < 10
    · rw [dif_pos h]
      exact ⟨decChar n, [], rfl, by rw [digVal_decChar]; rfl⟩
    · rw [dif_neg h]
      obtain ⟨c, t, hct, hd⟩ := ih (n / 10) (Nat.div_lt_self (by omega) (by omega))
      exact ⟨c, t ++ [decChar (n % 10)], by rw [hct]; rfl, hd⟩

theorem parseDigits_cons (acc : Nat) (c : Char) (rest : List Char) :
    parseDigits acc (c :: rest) =
      match digVal c with
      | some d => parseDigits (acc * 10 + d) rest
      | none => (acc, c :: rest) := rfl

theorem parseDigits_stop (acc : Nat) (rest : List Char) (h : digitHead rest = false) :
    parseDigits acc rest = (acc, rest) := by
  cases rest with
  | nil => rfl
  | cons c t =>
    have h' : (digVal c).isSome = false := h
    rw [parseDigits_cons]
    cases hd : digVal c with
    | some d => rw [hd] at h'; simp at h'
    | none => rfl

theorem parseDigits_natDec (n : Nat) : ∀ (acc : Nat) (rest : List Char),
    parseDigits acc (natDec n ++ rest) =
      parseDigits (acc * 10 ^ (natDec n).length + n) rest := by
  induction n using Nat.strong_induction_on with
  | _ n ih =>
    intro acc rest
    unfold natDec
    by_cases h : n < 10
    · rw [dif_pos h, List.singleton_append, parseDigits_cons, digVal_decChar,
        Nat.mod_eq_of_lt h]
      simp only [List.length_singleton, pow_one]
    · rw [dif_neg h, List.append_assoc, List.singleton_append,
        ih (n / 10) (Nat.div_lt_self (by omega) (by omega)),
        parseDigits_cons, digVal_decChar, Nat.mod_mod_of_dvd n (dvd_refl 10)]
      simp only []
      have harith : (acc * 10 ^ (natDec (n / 10)).length + n / 10) * 10 + n % 10 =
          acc * 10 ^ (natDec (n / 10) ++ [decChar (n % 10)]).length + n := by
        rw [List.length_append, List.length_singleton]
        set k := (natDec (n / 10)).length
        calc (acc * 10 ^ k + n / 10) * 10 + n % 10
            = acc * (10 ^ k * 10) + (n / 10 * 10 + n % 10) := by ring
          _ = acc * 10 ^ (k + 1) + n := by
              rw [← pow_succ, Nat.mul_comm (n / 10) 10, Nat.div_add_mod]
      rw [harith]

theorem digVal_bounds (c : Char) (h : (digVal c).isSome = true) :
    48 ≤ c.toNat ∧ c.toNat ≤ 57 := by
  unfold digVal at h
  split at h
  · next hc => simpa using hc
  · simp at h

theorem digit_ne (c : Char) (hlo : 48 ≤ c.toNat) (hhi : c.toNat ≤ 57)
    (d : Char) (hd : d.toNat < 48 ∨ 57 < d.toNat) : c ≠ d := by
  intro he
  subst he
  omega

theorem digit_not_ws (c : Char) (hlo : 48 ≤ c.toNat) (hhi : c.toNat ≤ 57) :
    isWsChar c = false := by
  have h1 : c ≠ ' ' := digit_ne c hlo hhi ' ' (by decide)
  have h2 : c ≠ '\t' := digit_ne c hlo hhi '\t' (by decide)
  have h3 : c ≠ '\n' := digit_ne c hlo hhi '\n' (by decide)
  have h4 : c ≠ '\r' := digit_ne c hlo hhi '\r' (by decide)
  simp [isWsChar, h1, h2, h3, h4]

theorem skipWs_cons_not (c : Char) (l : List Char) (h : isWsChar c = false) :
    skipWs (c :: l) = c :: l := by
  unfold skipWs
  rw [if_neg (by simp [h])]

theorem skipWs_cons_ws (c : Char) (l : List Char) (h : isWsChar c = true) :
    skipWs (c :: l) = skipWs l := by
  conv_lhs => unfold skipWs
  rw [if_pos h]

theorem parseVal_ws (n : Nat) (c : Char) (l : List Char) (h : isWsChar c = true) :
    parseVal n (c :: l) = parseVal n l := by
  cases n with
  | zero => rfl
  | succ m =>
    unfold parseVal
    rw [skipWs_cons_ws c l h]

theorem parseItems_ws (n : Nat) (c : Char) (l : List Char) (h : isWsChar c = true) :
    parseItems n (c :: l) = parseItems n l := by
  cases n with
  | zero => rfl
  | succ m =>
    unfold parseItems
    rw [parseVal_ws m c l h]

theorem parseFields_ws (n : Nat) (c : Char) (l : List Char) (h : isWsChar c = true) :
    parseFields n (c :: l) = parseFields n l := by
  cases n with
  | zero => rfl
  | succ m =>
    unfold parseFields
    rw [skipWs_cons_ws c l h]

/-- Input boundary after a serialized value: end of input, a separator, or
a closer — exactly the shapes the serializer produces. -/
def sepHead : List Char → Bool
  | [] => true
  | c :: _ => c = ',' || c = ']' || c = '\x7d'

theorem sepHead_digitHead (rest : List Char) (h : sepHead rest = true) :
    digitHead rest = false := by
  cases rest with
  | nil => rfl
  | cons c t =>
    simp only [sepHead, Bool.or_eq_true, decide_eq_true_eq] at h
    rcases h with (h | h) | h <;> subst h <;> rfl

theorem dumpVal_head (v : PyVal) :
    ∃ c t, dumpVal v = c :: t ∧ isWsChar c = false ∧ c ≠ ']' ∧ c ≠ '\x7d' := by
  cases v with
  | pnone => exact ⟨'n', ['u', 'l', 'l'], rfl, by decide, by decide, by decide⟩
  | pbool b =>
    cases b with
    | false => exact ⟨'f', ['a', 'l', 's', 'e'], rfl, by decide, by decide, by decide⟩
    | true => exact ⟨'t', ['r', 'u', 'e'], rfl, by decide, by decide, by decide⟩
  | pint k =>
    show ∃ c t, intDec k = c :: t ∧ _
    unfold intDec
    by_cases hk : k < 0
    · rw [if_pos hk]
      exact ⟨'-', natDec (-k).toNat, rfl, by decide, by decide, by decide⟩
    · rw [if_neg hk]
      obtain ⟨c, t, hct, hd⟩ := natDec_head k.toNat
      obtain ⟨hlo, hhi⟩ := digVal_bounds c hd
      exact ⟨c, t, hct, digit_not_ws c hlo hhi,
        digit_ne c hlo hhi ']' (by decide), digit_ne c hlo hhi '\x7d' (by decide)⟩
  | pstr s =>
    exact ⟨'"', s.data.flatMap jsonEscapeChar ++ ['"'], rfl, by decide, by decide,
      by decide⟩
  | plist xs => exact ⟨'[', dumpItems xs ++ [']'], rfl, by decide, by decide, by decide⟩
  | pdict kvs =>
    exact ⟨'\x7b', dumpFields kvs ++ ['\x7d'], rfl, by decide, by decide, by decide⟩

theorem char_toNat_not_surrogate (c : Char) :
    c.toNat < 55296 ∨ 57343 < c.toNat := by
  rcases c.valid with h | ⟨h1, _⟩
  · left; exact h
  · right; exact h1

theorem char_toNat_lt (c : Char) : c.toNat < 1114112 := by
  rcases c.valid with h | ⟨_, h2⟩
  · exact Nat.lt_trans h (by norm_num)
  · exact h2

theorem parseStringBody_lit (c : Char) (X : List Char) (h1 : c ≠ '"')
    (h2 : c ≠ '\\') (h3 : ¬ c.toNat < 32) :
    parseStringBody (c :: X) =
      (parseStringBody X).map (fun p => (c :: p.1, p.2)) := by
  conv_lhs => unfold parseStringBody
  rw [if_neg h1, if_neg h2, if_neg h3]

theorem parseStringBody_shortEsc (e uc : Char) (X : List Char)
    (hu : unescapeShort e = some uc) (hne : e ≠ 'u') :
    parseStringBody ('\\' :: e :: X) =
      (parseStringBody X).map (fun p => (uc :: p.1, p.2)) := by
  show parseEsc (e :: X) = _
  unfold parseEsc
  rw [if_neg hne, hu]

theorem parseU_bmp (n : Nat) (rest : List Char) (hn : n < 65536)
    (hlo : ¬ (55296 ≤ n ∧ n ≤ 56319)) (hhi : ¬ (56320 ≤ n ∧ n ≤ 57343)) :
    parseU (hex4 n ++ rest) =
      (parseStringBody rest).map (fun p => (Char.ofNat n :: p.1, p.2)) := by
  show parseU (hexChar (n / 4096) :: hexChar (n / 256) :: hexChar (n / 16) ::
    hexChar n :: rest) = _
  unfold parseU
  rw [hex4Val_hex4 n hn]
  dsimp only
  rw [if_neg (by simpa using hlo), if_neg (by simpa using hhi)]

theorem parseU_surrogatePair (v : Nat) (rest : List Char) (hv : v < 1048576) :
    parseU (hex4 (55296 + v / 1024) ++ ('\\' :: 'u' :: hex4 (56320 + v % 1024)) ++ rest) =
      (parseStringBody rest).map (fun p => (Char.ofNat (65536 + v) :: p.1, p.2)) := by
  show parseU (hexChar ((55296 + v / 1024) / 4096) :: hexChar ((55296 + v / 1024) / 256) ::
    hexChar ((55296 + v / 1024) / 16) :: hexChar (55296 + v / 1024) ::
    ('\\' :: 'u' :: (hexChar ((56320 + v % 1024) / 4096) :: hexChar ((56320 + v % 1024) / 256) ::
      hexChar ((56320 + v % 1024) / 16) :: hexChar (56320 + v % 1024) :: rest))) = _
  unfold parseU
  rw [hex4Val_hex4 (55296 + v / 1024) (by omega)]
  dsimp only
  rw [if_pos (by simp only [Bool.and_eq_true, decide_eq_true_eq]; omega)]
  unfold parseLowSur
  rw [if_pos (show (('\\' = '\\' : Bool) && ('u' = 'u' : Bool)) = true from by decide)]
  rw [hex4Val_hex4 (56320 + v % 1024) (by omega)]
  dsimp only
  rw [if_pos (by simp only [Bool.and_eq_true, decide_eq_true_eq]; omega)]
  simp only [show 65536 + (55296 + v / 1024 - 55296) * 1024 + (56320 + v % 1024 - 56320) =
    65536 + v from by omega]

theorem parseStringBody_u (Y : List Char) :
    parseStringBody ('\\' :: 'u' :: Y) = parseU Y := by
  show parseEsc ('u' :: Y) = _
  conv_lhs => unfold parseEsc
  rw [if_pos rfl]

theorem parseStringBody_roundtrip (l : List Char) : ∀ rest : List Char,
    parseStringBody (l.flatMap jsonEscapeChar ++ '"' :: rest) = some (l, rest) := by
  induction l with
  | nil =>
    intro rest
    show parseStringBody ('"' :: rest) = _
    conv_lhs => unfold parseStringBody
    rw [if_pos rfl]
  | cons c t ih =>
    intro rest
    rw [List.flatMap_cons, List.append_assoc]
    by_cases h1 : c = '"'
    · subst h1
      rw [show jsonEscapeChar '"' = ['\\', '"'] from rfl]
      show parseStringBody ('\\' :: '"' ::
        (t.flatMap jsonEscapeChar ++ '"' :: rest)) = _
      rw [parseStringBody_shortEsc '"' '"' _ rfl (by decide), ih rest]
      rfl
    · by_cases h2 : c = '\\'
      · subst h2
        rw [show jsonEscapeChar '\\' = ['\\', '\\'] from rfl]
        show parseStringBody ('\\' :: '\\' ::
          (t.flatMap jsonEscapeChar ++ '"' :: rest)) = _
        rw [parseStringBody_shortEsc '\\' '\\' _ rfl (by decide), ih rest]
        rfl
      · by_cases h3 : c = '\n'
        · subst h3
          rw [show jsonEscapeChar '\n' = ['\\', 'n'] from rfl]
          show parseStringBody ('\\' :: 'n' ::
            (t.flatMap jsonEscapeChar ++ '"' :: rest)) = _
          rw [parseStringBody_shortEsc 'n' '\n' _ rfl (by decide), ih rest]
          rfl
        · by_cases h4 : c = '\t'
          · subst h4
            rw [show jsonEscapeChar '\t' = ['\\', 't'] from rfl]
            show parseStringBody ('\\' :: 't' ::
              (t.flatMap jsonEscapeChar ++ '"' :: rest)) = _
            rw [parseStringBody_shortEsc 't' '\t' _ rfl (by decide), ih rest]
            rfl
          · by_cases h5 : c = '\r'
            · subst h5
              rw [show jsonEscapeChar '\r' = ['\\', 'r'] from rfl]
              show parseStringBody ('\\' :: 'r' ::
                (t.flatMap jsonEscapeChar ++ '"' :: rest)) = _
              rw [parseStringBody_shortEsc 'r' '\r' _ rfl (by decide), ih rest]
              rfl
            · by_cases h6 : c.toNat = 8
              · have hc : c = '\x08' := char_eq_of_toNat_eq (by rw [h6]; rfl)
                subst hc
                rw [show jsonEscapeChar '\x08' = ['\\', 'b'] from rfl]
                show parseStringBody ('\\' :: 'b' ::
                  (t.flatMap jsonEscapeChar ++ '"' :: rest)) = _
                rw [parseStringBody_shortEsc 'b' '\x08' _ rfl (by decide), ih rest]
                rfl
              · by_cases h7 : c.toNat = 12
                · have hc : c = '\x0c' := char_eq_of_toNat_eq (by rw [h7]; rfl)
                  subst hc
                  rw [show jsonEscapeChar '\x0c' = ['\\', 'f'] from rfl]
                  show parseStringBody ('\\' :: 'f' ::
                    (t.flatMap jsonEscapeChar ++ '"' :: rest)) = _
                  rw [parseStringBody_shortEsc 'f' '\x0c' _ rfl (by decide), ih rest]
                  rfl
                · by_cases h8 : (32 ≤ c.toNat && c.toNat < 127) = true
                  · have he : jsonEscapeChar c = [c] := by
                      unfold jsonEscapeChar
                      rw [if_neg h1, if_neg h2, if_neg h3, if_neg h4, if_neg h5,
                        if_neg h6, if_neg h7, if_pos h8]
                    rw [he]
                    have hge : ¬ c.toNat < 32 := by
                      simp only [Bool.and_eq_true, decide_eq_true_eq] at h8
                      omega
                    show parseStringBody (c ::
                      (t.flatMap jsonEscapeChar ++ '"' :: rest)) = _
                    rw [parseStringBody_lit c _ h1 h2 hge, ih rest]
                    rfl
                  · by_cases h9 : c.toNat < 65536
                    · have he : jsonEscapeChar c = '\\' :: 'u' :: hex4 c.toNat := by
                        unfold jsonEscapeChar
                        rw [if_neg h1, if_neg h2, if_neg h3, if_neg h4, if_neg h5,
                          if_neg h6, if_neg h7, if_neg h8, if_pos h9]
                      rw [he]
                      have hlo : ¬ (55296 ≤ c.toNat ∧ c.toNat ≤ 56319) := by
                        rcases char_toNat_not_surrogate c with h | h <;> omega
                      have hhi : ¬ (56320 ≤ c.toNat ∧ c.toNat ≤ 57343) := by
                        rcases char_toNat_not_surrogate c with h | h <;> omega
                      show parseStringBody ('\\' :: 'u' ::
                        (hex4 c.toNat ++ (t.flatMap jsonEscapeChar ++ '"' :: rest))) = _
                      rw [parseStringBody_u,
                        parseU_bmp c.toNat _ h9 hlo hhi, ih rest]
                      simp [Char.ofNat_toNat]
                    · have he : jsonEscapeChar c =
                          ('\\' :: 'u' :: hex4 (55296 + (c.toNat - 65536) / 1024)) ++
                          ('\\' :: 'u' :: hex4 (56320 + (c.toNat - 65536) % 1024)) := by
                        unfold jsonEscapeChar
                        rw [if_neg h1, if_neg h2, if_neg h3, if_neg h4, if_neg h5,
                          if_neg h6, if_neg h7, if_neg h8, if_neg h9]
                      rw [he, List.append_assoc]
                      show parseStringBody ('\\' :: 'u' ::
                        (hex4 (55296 + (c.toNat - 65536) / 1024) ++
                          (('\\' :: 'u' :: hex4 (56320 + (c.toNat - 65536) % 1024)) ++
                            (t.flatMap jsonEscapeChar ++ '"' :: rest)))) = _
                      rw [parseStringBody_u, ← List.append_assoc]
                      have hv : c.toNat - 65536 < 1048576 := by
                        have := char_toNat_lt c
                        omega
                      rw [parseU_surrogatePair (c.toNat - 65536) _ hv, ih rest]
                      have hcn : 65536 + (c.toNat - 65536) = c.toNat := by omega
                      simp [hcn, Char.ofNat_toNat]

theorem dumpItems_head (x : PyVal) (xs : List PyVal) :
    ∃ c t, dumpItems (x :: xs) = c :: t ∧ isWsChar c = false ∧ c ≠ ']' ∧ c ≠ '\x7d' := by
  obtain ⟨c, t, hct, h1, h2, h3⟩ := dumpVal_head x
  cases xs with
  | nil => exact ⟨c, t, hct, h1, h2, h3⟩
  | cons y ys =>
    refine ⟨c, t ++ ',' :: ' ' :: dumpItems (y :: ys), ?_, h1, h2, h3⟩
    show dumpVal x ++ ',' :: ' ' :: dumpItems (y :: ys) = _
    rw [hct]
    rfl

theorem parsePosInt_natDec (n : Nat) (rest : List Char) (h : digitHead rest = false) :
    parsePosInt (natDec n ++ rest) = some (n, rest) := by
  obtain ⟨c, t, hct, hd⟩ := natDec_head n
  unfold parsePosInt
  have hh : digitHead (natDec n ++ rest) = true := by
    rw [hct]
    simpa [digitHead] using hd
  rw [if_pos hh, parseDigits_natDec, parseDigits_stop _ _ h]
  simp

theorem parseVal_quote (n : Nat) (l : List Char) :
    parseVal (n+1) ('"' :: l) =
      (parseStringBody l).map (fun p => (.pstr (String.mk p.1), p.2)) := rfl

theorem parseVal_minus (n : Nat) (l : List Char) :
    parseVal (n+1) ('-' :: l) =
      (parsePosInt l).map (fun p => (.pint (-(p.1 : Int)), p.2)) := rfl

theorem parseVal_digit (n : Nat) (c : Char) (l : List Char)
    (hlo : 48 ≤ c.toNat) (hhi : c.toNat ≤ 57) :
    parseVal (n+1) (c :: l) =
      (parsePosInt (c :: l)).map (fun p => (.pint (p.1 : Int), p.2)) := by
  conv_lhs => unfold parseVal
  rw [skipWs_cons_not c l (digit_not_ws c hlo hhi)]
  dsimp only
  rw [if_neg (digit_ne c hlo hhi 'n' (by decide)),
      if_neg (digit_ne c hlo hhi 't' (by decide)),
      if_neg (digit_ne c hlo hhi 'f' (by decide)),
      if_neg (digit_ne c hlo hhi '"' (by decide)),
      if_neg (digit_ne c hlo hhi '[' (by decide)),
      if_neg (digit_ne c hlo hhi '\x7b' (by decide)),
      if_neg (digit_ne c hlo hhi '-' (by decide))]

theorem parseVal_lbrack (n : Nat) (c : Char) (l : List Char)
    (hws : isWsChar c = false) (hne : c ≠ ']') :
    parseVal (n+1) ('[' :: c :: l) =
      (parseItems n (c :: l)).map (fun p => (.plist p.1, p.2)) := by
  have h1 : parseVal (n+1) ('[' :: c :: l) =
      match skipWs (c :: l) with
      | ']' :: rest2 => some (.plist [], rest2)
      | rest2 => (parseItems n rest2).map (fun p => (.plist p.1, p.2)) := rfl
  rw [h1, skipWs_cons_not c l hws]
  split
  · next heq => exact absurd (List.cons.inj heq).1 hne
  · rfl

theorem parseVal_lbrace (n : Nat) (c : Char) (l : List Char)
    (hws : isWsChar c = false) (hne : c ≠ '\x7d') :
    parseVal (n+1) ('\x7b' :: c :: l) =
      (parseFields n (c :: l)).map (fun p => (.pdict p.1, p.2)) := by
  have h1 : parseVal (n+1) ('\x7b' :: c :: l) =
      match skipWs (c :: l) with
      | '\x7d' :: rest2 => some (.pdict [], rest2)
      | rest2 => (parseFields n rest2).map (fun p => (.pdict p.1, p.2)) := rfl
  rw [h1, skipWs_cons_not c l hws]
  split
  · next heq => exact absurd (List.cons.inj heq).1 hne
  · rfl

theorem parseItems_comma (n : Nat) (input l : List Char) (v : PyVal)
    (h : parseVal n input = some (v, ',' :: l)) :
    parseItems (n+1) input = (parseItems n l).map (fun p => (v :: p.1, p.2)) := by
  conv_lhs => unfold parseItems
  rw [h]
  rfl

theorem parseItems_close (n : Nat) (input l : List Char) (v : PyVal)
    (h : parseVal n input = some (v, ']' :: l)) :
    parseItems (n+1) input = some ([v], l) := by
  unfold parseItems
  rw [h]
  rfl

theorem dumpFields_head (kv : String × PyVal) (kvs : List (String × PyVal)) :
    ∃ t, dumpFields (kv :: kvs) = '"' :: t := by
  obtain ⟨k, v⟩ := kv
  cases kvs with
  | nil => exact ⟨_, rfl⟩
  | cons kv2 rest => exact ⟨_, rfl⟩

theorem parseFields_quote (n : Nat) (Y : List Char) :
    parseFields (n+1) ('"' :: Y) =
      (match parseStringBody Y with
       | none => none
       | some (k, rest2) =>
         match skipWs rest2 with
         | ':' :: rest3 =>
           (match parseVal n rest3 with
            | none => none
            | some (v, rest4) =>
              match skipWs rest4 with
              | ',' :: rest5 =>
                  (parseFields n rest5).map (fun p => ((String.mk k, v) :: p.1, p.2))
              | '\x7d' :: rest5 => some ([(String.mk k, v)], rest5)
              | _ => none)
         | _ => none) := rfl

theorem parseFields_elem (n : Nat) (kd : List Char) (Z : List Char) (v : PyVal)
    (rest4 : List Char) (hv : parseVal n Z = some (v, rest4)) :
    parseFields (n+1) ('"' :: (kd.flatMap jsonEscapeChar ++ '"' :: ':' :: ' ' :: Z)) =
      match skipWs rest4 with
      | ',' :: rest5 => (parseFields n rest5).map (fun p => ((String.mk kd, v) :: p.1, p.2))
      | '\x7d' :: rest5 => some ([(String.mk kd, v)], rest5)
      | _ => none := by
  rw [parseFields_quote n _, parseStringBody_roundtrip kd (':' :: ' ' :: Z)]
  show (match parseVal n (' ' :: Z) with
    | none => none
    | some (v2, rest4) =>
      match skipWs rest4 with
      | ',' :: rest5 => (parseFields n rest5).map
          (fun p : List (String × PyVal) × List Char => ((String.mk kd, v2) :: p.1, p.2))
      | '\x7d' :: rest5 => some ([(String.mk kd, v2)], rest5)
      | _ => none) = _
  rw [parseVal_ws n ' ' Z (by decide), hv]

/-- The parser inverts the serializer: with enough fuel, `parseVal` run on
`dumpVal v` followed by a separator-or-closer boundary consumes exactly the
serialized value and returns `v`; the items and fields parsers likewise
invert `dumpItems` and `dumpFields` up to their closing bracket. -/
theorem parse_dump_aux (n : Nat) :
    (∀ (v : PyVal) (rest : List Char), psize v ≤ n → sepHead rest = true →
      parseVal n (dumpVal v ++ rest) = some (v, rest)) ∧
    (∀ (x : PyVal) (xs : List PyVal) (rest : List Char),
      psizeItems (x :: xs) ≤ n →
      parseItems n (dumpItems (x :: xs) ++ ']' :: rest) = some (x :: xs, rest)) ∧
    (∀ (kv : String × PyVal) (kvs : List (String × PyVal)) (rest : List Char),
      psizeFields (kv :: kvs) ≤ n →
      parseFields n (dumpFields (kv :: kvs) ++ '\x7d' :: rest) = some (kv :: kvs, rest)) := by
  induction n with
  | zero =>
    refine ⟨?_, ?_, ?_⟩
    · intro v rest hsz _
      exact absurd hsz (by have := one_le_psize v; omega)
    · intro x xs rest hsz
      simp only [psizeItems] at hsz
      omega
    · intro kv kvs rest hsz
      simp only [psizeFields] at hsz
      omega
  | succ n ih =>
    obtain ⟨ih1, ih2, ih3⟩ := ih
    refine ⟨?_, ?_, ?_⟩
    · intro v rest hsz hsep
      cases v with
      | pnone => rfl
      | pbool b =>
        cases b with
        | true => rfl
        | false => rfl
      | pint k =>
        by_cases hk : k < 0
        · rw [show dumpVal (.pint k) ++ rest = '-' :: (natDec (-k).toNat ++ rest) from by
            show intDec k ++ rest = _
            unfold intDec
            rw [if_pos hk]
            rfl]
          rw [parseVal_minus n _,
            parsePosInt_natDec (-k).toNat rest (sepHead_digitHead rest hsep)]
          show some (PyVal.pint (-(((-k).toNat : Nat) : Int)), rest) = some (PyVal.pint k, rest)
          have he : (-(((-k).toNat : Nat) : Int)) = k := by omega
          rw [he]
        · obtain ⟨c, t, hct, hd⟩ := natDec_head k.toNat
          obtain ⟨hlo, hhi⟩ := digVal_bounds c hd
          rw [show dumpVal (.pint k) ++ rest = natDec k.toNat ++ rest from by
            show intDec k ++ rest = _
            unfold intDec
            rw [if_neg hk]]
          rw [hct, List.cons_append, parseVal_digit n c _ hlo hhi, ← List.cons_append, ← hct,
            parsePosInt_natDec k.toNat rest (sepHead_digitHead rest hsep)]
          show some (PyVal.pint ((k.toNat : Nat) : Int), rest) = some (PyVal.pint k, rest)
          have he : ((k.toNat : Nat) : Int) = k := by omega
          rw [he]
      | pstr s =>
        rw [show dumpVal (.pstr s) ++ rest =
            '"' :: (s.data.flatMap jsonEscapeChar ++ '"' :: rest) from by
          show '"' :: ((s.data.flatMap jsonEscapeChar ++ ['"']) ++ rest) = _
          rw [List.append_assoc]
          rfl]
        rw [parseVal_quote n _, parseStringBody_roundtrip s.data rest]
        rfl
      | plist xs =>
        cases xs with
        | nil => rfl
        | cons x xs2 =>
          have hsz2 : psizeItems (x :: xs2) ≤ n := by
            simp only [psize] at hsz
            omega
          obtain ⟨c, t, hct, hws, hne, _⟩ := dumpItems_head x xs2
          rw [show dumpVal (.plist (x :: xs2)) ++ rest =
              '[' :: (dumpItems (x :: xs2) ++ ']' :: rest) from by
            show '[' :: ((dumpItems (x :: xs2) ++ [']']) ++ rest) = _
            rw [List.append_assoc]
            rfl]
          rw [show dumpItems (x :: xs2) ++ ']' :: rest = c :: (t ++ ']' :: rest) from by
            rw [hct]
            rfl]
          rw [parseVal_lbrack n c _ hws hne]
          rw [show c :: (t ++ ']' :: rest) = dumpItems (x :: xs2) ++ ']' :: rest from by
            rw [hct]
            rfl]
          rw [ih2 x xs2 rest hsz2]
          rfl
      | pdict kvs =>
        cases kvs with
        | nil => rfl
        | cons kv kvs2 =>
          have hsz2 : psizeFields (kv :: kvs2) ≤ n := by
            simp only [psize] at hsz
            omega
          obtain ⟨t, hct⟩ := dumpFields_head kv kvs2
          rw [show dumpVal (.pdict (kv :: kvs2)) ++ rest =
              '\x7b' :: (dumpFields (kv :: kvs2) ++ '\x7d' :: rest) from by
            show '\x7b' :: ((dumpFields (kv :: kvs2) ++ ['\x7d']) ++ rest) = _
            rw [List.append_assoc]
            rfl]
          rw [show dumpFields (kv :: kvs2) ++ '\x7d' :: rest =
              '"' :: (t ++ '\x7d' :: rest) from by
            rw [hct]
            rfl]
          rw [parseVal_lbrace n '"' _ (by decide) (by decide)]
          rw [show ('"' : Char) :: (t ++ '\x7d' :: rest) =
              dumpFields (kv :: kvs2) ++ '\x7d' :: rest from by
            rw [hct]
            rfl]
          rw [ih3 kv kvs2 rest hsz2]
          rfl
    · intro x xs rest hsz
      cases xs with
      | nil =>
        have hsz1 : psize x ≤ n := by
          simp only [psizeItems] at hsz
          omega
        rw [show dumpItems [x] ++ ']' :: rest = dumpVal x ++ ']' :: rest from rfl]
        exact parseItems_close n _ rest x (ih1 x (']' :: rest) hsz1 rfl)
      | cons y ys =>
        have hx : psize x ≤ n := by
          simp only [psizeItems] at hsz
          have := one_le_psize y
          omega
        have hys : psizeItems (y :: ys) ≤ n := by
          simp only [psizeItems] at hsz ⊢
          have := one_le_psize x
          omega
        rw [show dumpItems (x :: y :: ys) ++ ']' :: rest =
            dumpVal x ++ ',' :: ' ' :: (dumpItems (y :: ys) ++ ']' :: rest) from by
          show (dumpVal x ++ ',' :: ' ' :: dumpItems (y :: ys)) ++ ']' :: rest = _
          rw [List.append_assoc]
          rfl]
        rw [parseItems_comma n _ _ x (ih1 x _ hx rfl)]
        rw [parseItems_ws n ' ' _ (by decide), ih2 y ys rest hys]
        rfl
    · intro kv kvs rest hsz
      obtain ⟨k, v⟩ := kv
      cases kvs with
      | nil =>
        have hv : psize v ≤ n := by
          simp only [psizeFields] at hsz
          omega
        rw [show dumpFields [(k, v)] ++ '\x7d' :: rest =
            '"' :: (k.data.flatMap jsonEscapeChar ++
              '"' :: ':' :: ' ' :: (dumpVal v ++ '\x7d' :: rest)) from by
          show (('"' :: (k.data.flatMap jsonEscapeChar ++ ['"'])) ++
              ':' :: ' ' :: dumpVal v) ++ '\x7d' :: rest = _
          simp only [List.cons_append, List.append_assoc, List.singleton_append,
            List.nil_append]]
        rw [parseFields_elem n k.data _ v ('\x7d' :: rest) (ih1 v ('\x7d' :: rest) hv rfl)]
        rw [skipWs_cons_not '\x7d' rest (by decide)]
        rfl
      | cons kv2 kvs2 =>
        have hv : psize v ≤ n := by
          simp only [psizeFields] at hsz
          have := one_le_psize kv2.2
          omega
        have hrest : psizeFields (kv2 :: kvs2) ≤ n := by
          simp only [psizeFields] at hsz ⊢
          have := one_le_psize v
          omega
        rw [show dumpFields ((k, v) :: kv2 :: kvs2) ++ '\x7d' :: rest =
            '"' :: (k.data.flatMap jsonEscapeChar ++
              '"' :: ':' :: ' ' :: (dumpVal v ++
                ',' :: ' ' :: (dumpFields (kv2 :: kvs2) ++ '\x7d' :: rest))) from by
          show ((('"' :: (k.data.flatMap jsonEscapeChar ++ ['"'])) ++
              ':' :: ' ' :: dumpVal v) ++
                ',' :: ' ' :: dumpFields (kv2 :: kvs2)) ++ '\x7d' :: rest = _
          simp only [List.cons_append, List.append_assoc, List.singleton_append,
            List.nil_append]]
        rw [parseFields_elem n k.data _ v
          (',' :: ' ' :: (dumpFields (kv2 :: kvs2) ++ '\x7d' :: rest))
          (ih1 v _ hv rfl)]
        rw [skipWs_cons_not ',' _ (by decide)]
        show (parseFields n (' ' :: (dumpFields (kv2 :: kvs2) ++ '\x7d' :: rest))).map
            (fun p => ((String.mk k.data, v) :: p.1, p.2)) = _
        rw [parseFields_ws n ' ' _ (by decide), ih3 kv2 kvs2 rest hrest]
        rfl

mutual

/-- The structural size of a value is at most the length of its
serialization. -/
theorem psize_le_dumpLen : ∀ v : PyVal, psize v ≤ (dumpVal v).length
  | .pnone => by simp [psize, dumpVal]
  | .pbool true => by simp [psize, dumpVal]
  | .pbool false => by simp [psize, dumpVal]
  | .pint k => by
      show psize (.pint k) ≤ (intDec k).length
      unfold intDec
      by_cases hk : k < 0
      · rw [if_pos hk]
        simp [psize]
      · rw [if_neg hk]
        obtain ⟨c, t, hct, _⟩ := natDec_head k.toNat
        rw [hct]
        simp [psize]
  | .pstr s => by simp [psize, dumpVal, jsonQuoted]
  | .plist xs => by
      have h := psizeItems_le_dumpLen xs
      show 1 + psizeItems xs ≤ ('[' :: (dumpItems xs ++ [']'])).length
      simp only [List.length_cons, List.length_append, List.length_singleton]
      omega
  | .pdict kvs => by
      have h := psizeFields_le_dumpLen kvs
      show 1 + psizeFields kvs ≤ ('\x7b' :: (dumpFields kvs ++ ['\x7d'])).length
      simp only [List.length_cons, List.length_append, List.length_singleton]
      omega

/-- Size bound for list items. -/
theorem psizeItems_le_dumpLen : ∀ xs : List PyVal, psizeItems xs ≤ (dumpItems xs).length + 1
  | [] => by simp [psizeItems, dumpItems]
  | [x] => by
      have h := psize_le_dumpLen x
      simp only [psizeItems, dumpItems]
      omega
  | x :: y :: ys => by
      have h1 := psize_le_dumpLen x
      have h2 := psizeItems_le_dumpLen (y :: ys)
      simp only [psizeItems, dumpItems, List.length_append, List.length_cons] at h2 ⊢
      omega

/-- Size bound for dict fields. -/
theorem psizeFields_le_dumpLen :
    ∀ kvs : List (String × PyVal), psizeFields kvs ≤ (dumpFields kvs).length + 1
  | [] => by simp [psizeFields, dumpFields]
  | [(k, v)] => by
      have h := psize_le_dumpLen v
      simp only [psizeFields, dumpFields, List.length_append, List.length_cons]
      omega
  | (k, v) :: kv2 :: kvs => by
      have h1 := psize_le_dumpLen v
      have h2 := psizeFields_le_dumpLen (kv2 :: kvs)
      simp only [psizeFields, dumpFields, List.length_append, List.length_cons] at h2 ⊢
      omega

end

/-- `json.loads` inverts `json.dumps` on every modelled value. -/
theorem json_loads_dumps (v : PyVal) : json_loads (json_dumps v) = some v := by
  unfold json_loads json_dumps
  have h : parseVal ((String.mk (dumpVal v)).length + 1) (String.mk (dumpVal v)).data =
      some (v, []) := by
    show parseVal ((dumpVal v).length + 1) (dumpVal v) = some (v, [])
    have h2 := (parse_dump_aux ((dumpVal v).length + 1)).1 v []
      (le_trans (psize_le_dumpLen v) (Nat.le_succ _)) rfl
    rwa [List.append_nil] at h2
  rw [h]
  rfl

/-- On a document that begins with `\x7b` and ends with `\x7d`, the
brace-slicing extraction selects the whole document: the first `\x7b` is at
index 0 and the last `\x7d` is the final character, whatever lies between. -/
theorem extract_json_wrap (B : List Char) :
    extract_json (String.mk ('\x7b' :: (B ++ ['\x7d']))) =
      json_loads (String.mk ('\x7b' :: (B ++ ['\x7d']))) := by
  have h1 : pyFind ('\x7b' :: (B ++ ['\x7d'])) '\x7b' = 0 := by
    unfold pyFind
    rw [List.findIdx?_cons]
    simp
  have h2 : pyRfind ('\x7b' :: (B ++ ['\x7d'])) '\x7d' = ((B.length + 1 : Nat) : Int) := by
    unfold pyRfind
    rw [show ('\x7b' :: (B ++ ['\x7d'])).reverse = '\x7d' :: (B.reverse ++ ['\x7b']) from by
      simp]
    rw [List.findIdx?_cons]
    simp
  unfold extract_json
  dsimp only
  rw [h1, h2]
  have hcond : (((0 : Int) != -1) && ((((B.length + 1 : Nat) : Int) + 1) != 0)) = true := by
    simp only [bne_iff_ne, Bool.and_eq_true, decide_eq_true_eq]
    constructor
    · omega
    · omega
  rw [if_pos hcond]
  have htn : ((((B.length + 1 : Nat) : Int) + 1)).toNat - (0 : Int).toNat = B.length + 2 := by
    omega
  rw [htn]
  have hdrop : (('\x7b' :: (B ++ ['\x7d'])).drop (0 : Int).toNat) =
      '\x7b' :: (B ++ ['\x7d']) := rfl
  rw [hdrop]
  rw [List.take_of_length_le (by simp)]

theorem dictGet_eq_none {kvs : List (String × PyVal)} {k : String}
    (h : hasKey kvs k = false) : dictGet kvs k = none := by
  simp only [hasKey, List.any_eq_false] at h
  simp only [dictGet, List.find?_eq_none.mpr h, Option.map_none']

theorem hasKey_setMap (t : List (String × PyVal)) (k k' : String) (v : PyVal)
    (_h : k' ≠ k) :
    hasKey (t.map (fun kv => if kv.1 == k then (k, v) else kv)) k' = hasKey t k' := by
  induction t with
  | nil => rfl
  | cons kv t ih =>
    simp only [List.map_cons, hasKey, List.any_cons] at *
    rw [ih]
    congr 1
    by_cases h2 : kv.1 == k
    · have hkv : kv.1 = k := by simpa using h2
      simp [h2, hkv]
    · simp [h2]

theorem hasKey_dictSet_ne (kvs : List (String × PyVal)) (k k' : String) (v : PyVal)
    (h : k' ≠ k) : hasKey (dictSet kvs k v) k' = hasKey kvs k' := by
  unfold dictSet
  by_cases hk : hasKey kvs k
  · rw [if_pos hk]
    exact hasKey_setMap kvs k k' v h
  · rw [if_neg hk]
    unfold hasKey
    rw [List.any_append]
    have hkk : (k == k') = false := beq_eq_false_iff_ne.mpr (fun he => h he.symm)
    simp [hkk]

theorem mem_dictSet {kvs : List (String × PyVal)} {k k' : String} {v d : PyVal}
    (h : (k', d) ∈ dictSet kvs k v) : (∃ d', (k', d') ∈ kvs) ∨ k' = k := by
  unfold dictSet at h
  by_cases hk : hasKey kvs k
  · simp only [hk, if_true] at h
    rcases List.mem_map.mp h with ⟨kv, hm, he⟩
    by_cases h2 : kv.1 == k
    · simp only [h2, if_true, Prod.mk.injEq] at he
      right; exact he.1.symm
    · simp only [h2, Bool.false_eq_true, if_false] at he
      left; exact ⟨d, he ▸ hm⟩
  · simp only [hk, Bool.false_eq_true, if_false, List.mem_append,
      List.mem_cons, List.not_mem_nil, or_false] at h
    rcases h with h1 | h1
    · left; exact ⟨d, h1⟩
    · right; exact (Prod.mk.injEq .. ▸ h1).1

theorem key_mem_foldl_dictSet (rows : List PlanRow) (init : List (String × PyVal))
    (k : String) (d : PyVal)
    (h : (k, d) ∈ rows.foldl (fun plans r => dictSet plans r.plan_id r.plan_data) init) :
    (∃ d', (k, d') ∈ init) ∨ ∃ r ∈ rows, r.plan_id = k := by
  induction rows generalizing init with
  | nil => left; exact ⟨d, h⟩
  | cons r t ih =>
    simp only [List.foldl_cons] at h
    rcases ih _ h with h1 | h1
    · rcases h1 with ⟨d', hd⟩
      rcases mem_dictSet hd with h2 | h2
      · left; exact h2
      · right; exact ⟨r, List.mem_cons_self r t, h2.symm⟩
    · rcases h1 with ⟨r', hr', he⟩
      right; exact ⟨r', List.mem_cons_of_mem r hr', he⟩

/-!
## Claim theorems
-/

/-- C8: storing a plan into a reachable store holding no other record with
that `plan_id`, then immediately retrieving it by `plan_id`, returns
exactly the stored `plan_data`. -/
theorem store_then_get_roundtrip :
    ∀ (st : SupaStore) (pid : String) (plan_data metadata : PyVal)
      (res : List (String × PyVal)) (st' : SupaStore),
      st.reachable = true →
      (∀ r ∈ st.rows, r.plan_id ≠ pid) →
      store_plan st pid plan_data metadata = .ok (res, st') →
      get_plan st' pid = some plan_data := by
  intro st pid plan_data metadata res st' hreach hfresh hstore
  unfold store_plan at hstore
  rw [hreach] at hstore
  simp only [Bool.not_true, Bool.false_eq_true, if_false, Except.ok.injEq,
    Prod.mk.injEq] at hstore
  obtain ⟨-, hst⟩ := hstore
  subst hst
  unfold get_plan
  have hnil : st.rows.filter
      (fun r => r.plan_id == pid && r.is_active) = [] := by
    apply List.filter_eq_nil_iff.mpr
    intro r hr
    simp only [Bool.and_eq_true, beq_iff_eq, not_and]
    intro he _
    exact hfresh r hr he
  simp [hnil, List.filter_append, List.filter]

/-- C8 witness: a concrete round trip through an empty reachable store. -/
theorem store_then_get_roundtrip_witness :
    get_plan ⟨true, [⟨1, "p1", .pstr "data", .pdict [], true, "t0", "t0"⟩], 2, "t0"⟩
      "p1" = some (.pstr "data") :=
  store_then_get_roundtrip ⟨true, [], 1, "t0"⟩ "p1" (.pstr "data") .pnone
    [("success", .pbool true), ("plan_id", .pstr "p1"), ("id", .pint 1),
     ("created_at", .pstr "t0")]
    ⟨true, [⟨1, "p1", .pstr "data", .pdict [], true, "t0", "t0"⟩], 2, "t0"⟩
    rfl (by intro r hr; exact absurd hr (List.not_mem_nil r)) rfl

/-- C9: deactivating a plan in a reachable store only flips `is_active` to
`False` on the rows with that `plan_id` (every other column and every row
is kept), after which the plan id no longer appears in the `get_all_plans`
dict, while the rows with that id are still present in the table. -/
theorem deactivate_plan_frame_and_filter :
    ∀ (st : SupaStore) (pid : String), st.reachable = true →
      List.Forall₂ (fun r r' : PlanRow =>
        r'.rid = r.rid ∧ r'.plan_id = r.plan_id ∧ r'.plan_data = r.plan_data ∧
        r'.metadata = r.metadata ∧ r'.created_at = r.created_at ∧
        r'.updated_at = r.updated_at ∧
        r'.is_active = (if r.plan_id = pid then false else r.is_active))
        st.rows (deactivate_plan st pid).2.rows ∧
      (∀ d, (pid, d) ∉ get_all_plans (deactivate_plan st pid).2) ∧
      ((∃ r ∈ st.rows, r.plan_id = pid) →
        ∃ r ∈ (deactivate_plan st pid).2.rows, r.plan_id = pid) := by
  intro st pid hreach
  have hrows : (deactivate_plan st pid).2.rows = st.rows.map
      (fun r => if r.plan_id == pid then { r with is_active := false } else r) := by
    unfold deactivate_plan
    rw [hreach]
    rfl
  have hre : (deactivate_plan st pid).2.reachable = st.reachable := by
    unfold deactivate_plan
    rw [hreach]
    rfl
  refine ⟨?_, ?_, ?_⟩
  · rw [hrows]
    have : ∀ l : List PlanRow, List.Forall₂ (fun r r' : PlanRow =>
        r'.rid = r.rid ∧ r'.plan_id = r.plan_id ∧ r'.plan_data = r.plan_data ∧
        r'.metadata = r.metadata ∧ r'.created_at = r.created_at ∧
        r'.updated_at = r.updated_at ∧
        r'.is_active = (if r.plan_id = pid then false else r.is_active))
        l (l.map (fun r => if r.plan_id == pid then { r with is_active := false } else r)) := by
      intro l
      induction l with
      | nil => exact .nil
      | cons r t ih =>
        refine .cons ?_ ih
        by_cases hr : r.plan_id = pid
        · simp [hr]
        · simp [hr]
    exact this st.rows
  · intro d hd
    unfold get_all_plans at hd
    rw [hre, hreach] at hd
    simp only [Bool.not_true, Bool.false_eq_true, if_false] at hd
    rcases key_mem_foldl_dictSet _ _ _ _ hd with ⟨d', hd'⟩ | ⟨r, hr, he⟩
    · simp at hd'
    · unfold activeRowsByCreatedDesc at hr
      have hr2 := ((List.mergeSort_perm _ _).mem_iff).mp hr
      rw [hrows] at hr2
      rcases List.mem_filter.mp hr2 with ⟨hmem, hact⟩
      rcases List.mem_map.mp hmem with ⟨r0, _, hmap⟩
      by_cases h0 : r0.plan_id = pid
      · rw [← hmap] at hact
        simp [h0] at hact
      · rw [← hmap] at he
        simp [h0] at he
  · intro ⟨r, hr, he⟩
    rw [hrows]
    refine ⟨if r.plan_id == pid then { r with is_active := false } else r,
      List.mem_map_of_mem _ hr, ?_⟩
    by_cases h0 : r.plan_id = pid
    · simp [h0]
    · exact absurd he h0

/-- C9 witness: deactivating a one-row reachable store. -/
theorem deactivate_plan_frame_and_filter_witness :
    let row : PlanRow := ⟨1, "p1", .pstr "d", .pdict [], true, "t1", "t1"⟩
    let st : SupaStore := ⟨true, [row], 2, "t1"⟩
    List.Forall₂ (fun r r' : PlanRow =>
      r'.rid = r.rid ∧ r'.plan_id = r.plan_id ∧ r'.plan_data = r.plan_data ∧
      r'.metadata = r.metadata ∧ r'.created_at = r.created_at ∧
      r'.updated_at = r.updated_at ∧
      r'.is_active = (if r.plan_id = "p1" then false else r.is_active))
      st.rows (deactivate_plan st "p1").2.rows ∧
    (∀ d, ("p1", d) ∉ get_all_plans (deactivate_plan st "p1").2) ∧
    ((∃ r ∈ st.rows, r.plan_id = "p1") →
      ∃ r ∈ (deactivate_plan st "p1").2.rows, r.plan_id = "p1") :=
  deactivate_plan_frame_and_filter ⟨true, [⟨1, "p1", .pstr "d", .pdict [], true, "t1", "t1"⟩], 2, "t1"⟩ "p1" rfl

/-- C10: with the backend unreachable, every read/modify operation except
`store_plan` swallows the failure into its falsy default (`None`, the
empty dict, or `False`) and leaves the store untouched, so an absent plan
and an unreachable store are indistinguishable to a caller; only
`store_plan` re-raises. -/
theorem service_unreachable_defaults :
    ∀ (rows : List PlanRow) (nextId : Int) (clock : String)
      (pid category : String) (plan_data metadata : PyVal),
      get_plan ⟨false, rows, nextId, clock⟩ pid = none ∧
      get_all_plans ⟨false, rows, nextId, clock⟩ = [] ∧
      get_plans_by_category ⟨false, rows, nextId, clock⟩ category = [] ∧
      update_plan ⟨false, rows, nextId, clock⟩ pid plan_data metadata =
        (false, ⟨false, rows, nextId, clock⟩) ∧
      deactivate_plan ⟨false, rows, nextId, clock⟩ pid =
        (false, ⟨false, rows, nextId, clock⟩) ∧
      delete_plan ⟨false, rows, nextId, clock⟩ pid =
        (false, ⟨false, rows, nextId, clock⟩) ∧
      plan_exists ⟨false, rows, nextId, clock⟩ pid = false ∧
      get_plan_metadata ⟨false, rows, nextId, clock⟩ pid = none ∧
      store_plan ⟨false, rows, nextId, clock⟩ pid plan_data metadata =
        .error "Failed to store plan: connection error" ∧
      get_plan ⟨false, rows, nextId, clock⟩ pid =
        get_plan ⟨true, [], nextId, clock⟩ pid := by
  intro rows nextId clock pid category plan_data metadata
  exact ⟨rfl, rfl, rfl, rfl, rfl, rfl, rfl, rfl, rfl, rfl⟩

/-- C5: whenever `_create_days_structure` returns (rather than raising),
the returned days mapping is non-empty — each recognized shape is
reformatted, and the hardcoded default single-day structure backfills when
nothing survives. -/
theorem days_structure_nonempty :
    ∀ (fitness_plan : List (String × PyVal)) (d : List (String × PyVal)),
      create_days_structure fitness_plan = .ok d → d ≠ [] := by
  intro fp d h
  unfold create_days_structure at h
  cases hr : rawDaysStructure fp with
  | error e => rw [hr] at h; exact absurd h (by simp)
  | ok days =>
    rw [hr] at h
    simp only [Except.ok.injEq] at h
    subst h
    by_cases he : days.isEmpty
    · rw [if_pos he]
      simp [defaultDays]
    · rw [if_neg he]
      intro hnil
      rw [hnil] at he
      exact he rfl

/-- C5 witness: the empty fitness plan falls through to the default
single-day structure, which is non-empty. -/
theorem days_structure_nonempty_witness : defaultDays ≠ ([] : List (String × PyVal)) :=
  days_structure_nonempty [] defaultDays rfl

/-- C3 counterexample: with an explicit one-entry `weekly_split` field,
`_create_weekly_split` returns it verbatim — the assembled split has
length 1, not 7; nothing pads or truncates. -/
theorem weekly_split_not_padded_counterexample :
    create_weekly_split [("weekly_split", .plist [.pstr "Mon: Upper"])] =
      .plist [.pstr "Mon: Upper"] ∧ [PyVal.pstr "Mon: Upper"].length ≠ 7 :=
  ⟨rfl, by simp⟩

/-- C3 amended: when the fitness output has no `weekly_split` key the
hardcoded default of length 7 is returned (an explicit `weekly_split` is
passed through verbatim, with no padding or truncation); and
`FitnessAgent.process` output never contains a `weekly_split` key, so on
the actual pipeline the assembled `weekly_split` always has 7 entries. -/
theorem weekly_split_seven :
    (∀ fp : List (String × PyVal), hasKey fp "weekly_split" = false →
      create_weekly_split fp = .plist defaultWeeklySplit) ∧
    defaultWeeklySplit.length = 7 ∧
    (∀ (research : List (String × PyVal)) (goals constraints : List String)
       (timeline lvl : String) (fp : List (String × PyVal)),
      fitness_process research goals constraints timeline lvl = .ok fp →
      hasKey fp "weekly_split" = false) := by
  refine ⟨?_, rfl, ?_⟩
  · intro fp h
    unfold create_weekly_split
    rw [dictGet_eq_none h]
  · intro research goals constraints timeline lvl fp h
    unfold fitness_process at h
    cases hgr : fitness_create_global_rules research constraints with
    | error e => rw [hgr] at h; simp [Bind.bind, Except.bind] at h
    | ok gr =>
      rw [hgr] at h
      cases hsc : add_safety_considerations research constraints with
      | error e => rw [hsc] at h; simp [Bind.bind, Except.bind] at h
      | ok sc =>
        rw [hsc] at h
        simp only [Bind.bind, Except.bind, pure, Except.pure, Except.ok.injEq] at h
        subst h
        rw [hasKey_dictSet_ne _ _ _ _ (by decide),
          hasKey_dictSet_ne _ _ _ _ (by decide)]
        unfold organize_by_days
        by_cases h1 : (goals.contains "senior_fitness" || goals.contains "mobility"
            || goals.contains "balance") = true
        · rw [if_pos h1]; decide
        · rw [if_neg h1]
          by_cases h2 : (goals.contains "postpartum"
              || goals.contains "core_restoration") = true
          · rw [if_pos h2]; decide
          · rw [if_neg h2]; decide

/-- C3 witness: a concrete `FitnessAgent.process` run whose output has no
`weekly_split` key. -/
theorem weekly_split_seven_witness :
    hasKey ((fitness_process [] ["strength"] [] "12_weeks" "beginner").toOption.getD
      [("weekly_split", .pnone)]) "weekly_split" = false :=
  weekly_split_seven.2.2 [] ["strength"] [] "12_weeks" "beginner" _ (by rfl)

/-- C2 amended: the orchestrator's `_generate_plan_id` equals the slug
formula and depends only on the population and the first two goals. -/
theorem plan_id_slug_deterministic :
    ∀ r₁ r₂ : HealthPlanRequest,
      r₁.population = r₂.population → r₁.goals.take 2 = r₂.goals.take 2 →
      generate_plan_id r₁ = generate_plan_id r₂ ∧
      generate_plan_id r₁ = populationSlug r₁.population ++ "_" ++
        strJoin "_" ((r₁.goals.take 2).map goalSlug) := by
  intro r₁ r₂ h1 h2
  refine ⟨?_, rfl⟩
  unfold generate_plan_id
  rw [h1, h2]

/-- C2 witness: two requests sharing population and first two goals but
differing elsewhere get the same plan id. -/
theorem plan_id_slug_deterministic_witness :
    generate_plan_id ⟨"weight_loss", ["fat_loss", "endurance"], [], "8_weeks", "beginner", [], []⟩ =
      generate_plan_id ⟨"weight_loss", ["fat_loss", "endurance", "mobility"], ["knee_pain"],
        "12_weeks", "advanced", ["gym_based"], []⟩ :=
  (plan_id_slug_deterministic _ _ rfl rfl).1

/-- C2 counterexample: the web-facing POST /api/v1/plans/generate path
assigns `plan_id = "integrated_workout_" + timestamp`
(`IntegratedWorkoutPlanner._generate_workout_plan`), so two generations
with the identical (population, goals[:2]) — run one clock tick apart —
get different plan ids, and neither is the slug. -/
theorem web_plan_id_counterexample :
    ((generate_workout_plan (.ok "\x7b\x7d") "20250101_120000"
        [("population", .pstr "weight_loss"),
         ("goals", .plist [.pstr "fat_loss", .pstr "endurance"])]).toOption.bind
      (fun wp => dictGet wp "plan_id")) =
        some (.pstr "integrated_workout_20250101_120000") ∧
    ((generate_workout_plan (.ok "\x7b\x7d") "20250101_120001"
        [("population", .pstr "weight_loss"),
         ("goals", .plist [.pstr "fat_loss", .pstr "endurance"])]).toOption.bind
      (fun wp => dictGet wp "plan_id")) =
        some (.pstr "integrated_workout_20250101_120001") ∧
    some (PyVal.pstr "integrated_workout_20250101_120000") ≠
      some (PyVal.pstr "integrated_workout_20250101_120001") ∧
    "integrated_workout_20250101_120000" ≠
      generate_plan_id ⟨"weight_loss", ["fat_loss", "endurance"], [], "8_weeks",
        "beginner", [], []⟩ := by
  refine ⟨rfl, rfl, by simp, by decide⟩

/-- C7: when plan generation raises, the web-facing
POST /api/v1/plans/generate path answers HTTP 500 and the persistence state
(Supabase rows and local backup files) is exactly the initial one — both
writes happen only after generation returns successfully. -/
theorem failed_generation_500_no_store :
    ∀ (llm : Except Unit String) (now nowIso : String)
      (supabaseConfigured dbInsertOk : Bool)
      (request : List (String × PyVal)) (st : IWState) (e : String),
      generate_workout_plan llm now (plannerRequestOf request) = .error e →
      endpoint_generate_plan true llm now nowIso supabaseConfigured dbInsertOk request st =
        (.httpError 500 ("Error generating plan: " ++ e), st) := by
  intro llm now nowIso sc dbOk request st e hgen
  simp [endpoint_generate_plan, generate_and_store_workout_plan, hgen]

/-- C7 witness: an LLM failure surfaces as a 500 with the state unchanged. -/
theorem failed_generation_500_no_store_witness :
    endpoint_generate_plan true (.error ()) "20250101_120000" "2025-01-01T12:00:00"
        true true [] ⟨[], 1, []⟩ =
      (.httpError 500 "Error generating plan: OpenAI call failed", ⟨[], 1, []⟩) :=
  failed_generation_500_no_store (.error ()) "20250101_120000" "2025-01-01T12:00:00"
    true true [] ⟨[], 1, []⟩ "OpenAI call failed" rfl

/-- The seven required top-level keys of a plan document. -/
def requiredPlanKeys : List String :=
  ["overview", "weekly_split", "global_rules", "days",
   "conditioning_and_recovery", "nutrition", "execution_checklist"]

/-- C1: whatever the five agent stages return (or whether any of them and
the overview LLM call fail), a successfully generated plan stores under the
generated plan id a document carrying all seven required top-level keys. -/
theorem generated_plan_has_seven_keys :
    ∀ (r : HealthPlanRequest)
      (researchR fitnessR nutritionR motivationR safetyR :
        Except String (List (String × PyVal)))
      (llm : Except Unit String) (plan : List (String × PyVal)),
      generate_health_plan r researchR fitnessR nutritionR motivationR safetyR llm = .ok plan →
      ∃ doc, dictGet plan (generate_plan_id r) = some (.pdict doc) ∧
        requiredPlanKeys.all (fun k => hasKey doc k) = true := by
  intro r researchR fitnessR nutritionR motivationR safetyR llm plan h
  unfold generate_health_plan at h
  cases researchR with
  | error e => simp [Bind.bind, Except.bind] at h
  | ok research =>
  cases fitnessR with
  | error e => simp [Bind.bind, Except.bind] at h
  | ok fitness =>
  cases nutritionR with
  | error e => simp [Bind.bind, Except.bind] at h
  | ok nutrition =>
  cases motivationR with
  | error e => simp [Bind.bind, Except.bind] at h
  | ok motivation =>
  cases safetyR with
  | error e => simp [Bind.bind, Except.bind] at h
  | ok safety =>
  simp only [Bind.bind, Except.bind] at h
  unfold integrate_plan at h
  cases hgr : create_global_rules fitness safety with
  | error e => rw [hgr] at h; simp [Bind.bind, Except.bind] at h
  | ok gr =>
  rw [hgr] at h
  cases hds : create_days_structure fitness with
  | error e => rw [hds] at h; simp [Bind.bind, Except.bind] at h
  | ok days =>
  rw [hds] at h
  cases hcr : create_conditioning_recovery fitness safety with
  | error e => rw [hcr] at h; simp [Bind.bind, Except.bind] at h
  | ok condRec =>
  rw [hcr] at h
  simp only [Bind.bind, Except.bind, pure, Except.pure, Except.ok.injEq] at h
  subst h
  refine ⟨[("overview", PyVal.pstr (generate_overview r llm)),
           ("weekly_split", create_weekly_split fitness),
           ("global_rules", PyVal.plist gr),
           ("days", PyVal.pdict days),
           ("conditioning_and_recovery", PyVal.plist condRec),
           ("nutrition", PyVal.pdict (create_nutrition_section nutrition)),
           ("execution_checklist", PyVal.plist
             (create_execution_checklist fitness nutrition motivation safety))],
    ?_, ?_⟩
  · simp [dictGet]
  · rfl

/-- C1 witness: a concrete run with empty agent outputs still yields a
document with all seven keys. -/
theorem generated_plan_has_seven_keys_witness :
    ∃ doc, dictGet ((generate_health_plan
        ⟨"weight_loss", ["fat_loss", "endurance"], [], "8_weeks", "beginner", [], []⟩
        (.ok []) (.ok []) (.ok []) (.ok []) (.ok [])
        (.ok "An overview")).toOption.getD [])
      (generate_plan_id
        ⟨"weight_loss", ["fat_loss", "endurance"], [], "8_weeks", "beginner", [], []⟩) =
        some (.pdict doc) ∧
      requiredPlanKeys.all (fun k => hasKey doc k) = true :=
  generated_plan_has_seven_keys
    ⟨"weight_loss", ["fat_loss", "endurance"], [], "8_weeks", "beginner", [], []⟩
    (.ok []) (.ok []) (.ok []) (.ok []) (.ok []) (.ok "An overview") _ (by rfl)

/-- C4 amended: `ContraindicationCheckerTool.execute` flags exactly the
(exercise, condition) pairs whose exercise name the static table lists
under that condition — among the exercise names handed to it; the
counterexample shows the pipeline hands it an empty list. -/
theorem contraindication_flagging_exact :
    ∀ (exercises : List PyVal) (conditions : List String) (ex cond : String),
      mkFlagged (.pstr ex) cond ∈ flaggedExercisesOf exercises conditions ↔
        cond ∈ conditions ∧ PyVal.pstr ex ∈ exercises ∧
          ex ∈ contraindicationsFor cond := by
  intro exercises conditions ex cond
  unfold flaggedExercisesOf
  constructor
  · intro h
    rcases List.mem_flatMap.mp h with ⟨c, hc, hmem⟩
    rcases List.mem_map.mp hmem with ⟨e, he, heq⟩
    have hinj : e = PyVal.pstr ex ∧ c = cond := by
      simp only [mkFlagged, PyVal.pdict.injEq, List.cons.injEq, Prod.mk.injEq,
        PyVal.pstr.injEq, and_true, true_and] at heq
      exact ⟨heq.1, heq.2⟩
    obtain ⟨rfl, rfl⟩ := hinj
    rcases List.mem_filter.mp he with ⟨hmem2, hpred⟩
    refine ⟨hc, hmem2, ?_⟩
    simp only at hpred
    exact List.elem_iff.mp hpred
  · rintro ⟨hc, he, ht⟩
    apply List.mem_flatMap.mpr
    refine ⟨cond, hc, List.mem_map.mpr ⟨.pstr ex, List.mem_filter.mpr ⟨he, ?_⟩, rfl⟩⟩
    simp only
    exact List.elem_iff.mpr ht

/-- C4 amended witness: a handed-in table-listed exercise is flagged. -/
theorem contraindication_flagging_exact_witness :
    mkFlagged (.pstr "Sit-ups") "diastasis_recti" ∈
      flaggedExercisesOf [.pstr "Sit-ups", .pstr "Walking"] ["diastasis_recti"] :=
  (contraindication_flagging_exact [.pstr "Sit-ups", .pstr "Walking"]
    ["diastasis_recti"] "Sit-ups" "diastasis_recti").mpr
    ⟨by simp, by simp, by decide⟩

/-- The fitness plan the pipeline's Safety stage actually receives: the
output of `FitnessAgent.process` for a general-fitness request under the
`diastasis_recti` constraint. -/
def c4FitnessPlan : List (String × PyVal) :=
  (fitness_process [] ["general_fitness"] ["diastasis_recti"] "12_weeks"
    "beginner").toOption.getD []

/-- C4 counterexample: the fitness plan contains "Russian twists", which
the table lists under the given constraint `diastasis_recti`, yet the
safety report's `contraindications` comes out empty — because
`_extract_exercises` reads only a `fitness_plan["exercises"]` sub-mapping
that `FitnessAgent.process` output does not have.  So the
`contraindications` field does not contain "exactly those exercises of the
fitness plan that the table lists". -/
theorem pipeline_contraindications_empty_counterexample :
    (specPlanExerciseNames c4FitnessPlan).contains "Russian twists" = true ∧
    (contraindicationsFor "diastasis_recti").contains "Russian twists" = true ∧
    safety_contraindications c4FitnessPlan ["diastasis_recti"] = .ok [] ∧
    mkFlagged (.pstr "Russian twists") "diastasis_recti" ∉ ([] : List PyVal) :=
  ⟨by decide, by decide, rfl, by simp⟩

/-- C6: for every JSON-serializable mapping whose string components contain
no brace characters, the planners' brace-slicing JSON extraction applied to
`json.dumps` of the mapping returns the mapping itself — the round-trip law
for already-minimal JSON text.  (The serialized mapping begins with its
opening brace and ends with its closing brace, so the slice from the first
`\x7b` to the last `\x7d` is the whole document, which `json.loads` parses
back to the original value.) -/
theorem extract_json_dumps_roundtrip (kvs : List (String × PyVal))
    (_h : braceFree (.pdict kvs) = true) :
    extract_json (json_dumps (.pdict kvs)) = some (.pdict kvs) := by
  rw [show json_dumps (.pdict kvs) =
      String.mk ('\x7b' :: (dumpFields kvs ++ ['\x7d'])) from rfl,
    extract_json_wrap (dumpFields kvs)]
  exact json_loads_dumps (.pdict kvs)

/-- C6 witness: a concrete brace-free two-field mapping survives the
dump-then-extract round trip. -/
theorem extract_json_dumps_roundtrip_witness :
    braceFree (.pdict [("plan_id", .pstr "p1"), ("days", .plist [.pstr "Mon"])]) = true ∧
    extract_json (json_dumps
        (.pdict [("plan_id", .pstr "p1"), ("days", .plist [.pstr "Mon"])])) =
      some (.pdict [("plan_id", .pstr "p1"), ("days", .plist [.pstr "Mon"])]) :=
  ⟨by decide, extract_json_dumps_roundtrip _ (by decide)⟩

end HealthPlan
